import Mathlib

/-!
Verification development for The Observatory world server.

The definitions below are a shallow embedding of the Python sources under
`src/observatory/`: the resource system (`world/resources.py`), the region
system (`world/regions.py`), the deterministic rules engine
(`world/rules.py`), the tick engine's side-effect application
(`world/engine.py`), the trade ledger (`economy/trade.py`), the agent
lifecycle (`agents/lifecycle.py`) and agent registration
(`agents/interface.py`).  Python floats are modelled as rationals; all
constants of the program are exact decimals, so this is faithful for the
arithmetic the program performs.
-/

namespace Observatory

/-- The closed set of resource kinds (`ResourceType` in resources.py). -/
inductive ResourceType
  | energy
  | bandwidth
  | memory
  | compute
deriving DecidableEq, Fintype

/-- A total assignment of a rational quantity to every resource kind.
The Python source stores holdings and caps as dicts; every pool the
program constructs (`create_default`, the fork side effect, loading a
saved pool) carries all four kinds, so a total record is the faithful
shape.  Reads in the source go through `.get(rtype, 0)`, matching
totality. -/
structure Quantities where
  energy : ℚ
  bandwidth : ℚ
  memory : ℚ
  compute : ℚ
deriving DecidableEq

namespace Quantities

def get (q : Quantities) : ResourceType → ℚ
  | .energy => q.energy
  | .bandwidth => q.bandwidth
  | .memory => q.memory
  | .compute => q.compute

def set (q : Quantities) : ResourceType → ℚ → Quantities
  | .energy, v => { q with energy := v }
  | .bandwidth, v => { q with bandwidth := v }
  | .memory, v => { q with memory := v }
  | .compute, v => { q with compute := v }

end Quantities

/-- Per-kind caps from `RESOURCE_DEFAULTS` in resources.py. -/
def defaultCaps : Quantities := ⟨100, 50, 200, 80⟩

/-- Per-kind regeneration rates from `RESOURCE_DEFAULTS` in resources.py. -/
def defaultRegen : Quantities := ⟨2, 1, 0, 3/2⟩

/-- Per-kind initial holdings from `RESOURCE_DEFAULTS` in resources.py. -/
def defaultInitial : Quantities := ⟨50, 25, 100, 40⟩

/-- A cost table, as produced by iterating a Python cost dict's items. -/
abbrev Costs := List (ResourceType × ℚ)

/-- `ACTION_COSTS` from resources.py, read through `.get(action_type, {})`:
actions outside the table yield the empty cost dict. -/
def ACTION_COSTS : String → Costs
  | "move" => [(.energy, 5)]
  | "trade" => [(.energy, 2), (.bandwidth, 3)]
  | "send_message" => [(.bandwidth, 5), (.energy, 1)]
  | "observe" => [(.energy, 1)]
  | "fork" => [(.energy, 40), (.memory, 50), (.compute, 30)]
  | "merge" => [(.energy, 20), (.compute, 20)]
  | "attack" => [(.energy, 15), (.compute, 10)]
  | "ally" => [(.energy, 3), (.bandwidth, 2)]
  | _ => []

/-- `ResourcePool` from resources.py: holdings plus caps. -/
structure ResourcePool where
  holdings : Quantities
  caps : Quantities
deriving DecidableEq

namespace ResourcePool

/-- `ResourcePool.create_default`. -/
def create_default : ResourcePool := ⟨defaultInitial, defaultCaps⟩

/-- `ResourcePool.can_afford`: every listed cost is covered. -/
def can_afford (p : ResourcePool) (costs : Costs) : Bool :=
  costs.all fun rc => decide (rc.2 ≤ p.holdings.get rc.1)

/-- Subtract every listed cost from the holdings (the loop body of
`ResourcePool.deduct`). -/
def subtractAll (q : Quantities) (costs : Costs) : Quantities :=
  costs.foldl (fun h rc => h.set rc.1 (h.get rc.1 - rc.2)) q

/-- `ResourcePool.deduct`: returns the success flag of the Python method
together with the pool it leaves behind. -/
def deduct (p : ResourcePool) (costs : Costs) : Bool × ResourcePool :=
  if p.can_afford costs then
    (true, { p with holdings := subtractAll p.holdings costs })
  else
    (false, p)

/-- `ResourcePool.regenerate`: each kind gains its default regen rate
scaled by the region multiplier, clamped to the pool's cap. -/
def regenerate (p : ResourcePool) (m : ℚ) : ResourcePool :=
  { p with
    holdings :=
      { energy := min (p.holdings.energy + defaultRegen.energy * m) p.caps.energy
        bandwidth := min (p.holdings.bandwidth + defaultRegen.bandwidth * m) p.caps.bandwidth
        memory := min (p.holdings.memory + defaultRegen.memory * m) p.caps.memory
        compute := min (p.holdings.compute + defaultRegen.compute * m) p.caps.compute } }

end ResourcePool

/-! ## Regions (world/regions.py) -/

/-- `Region` from regions.py. -/
structure Region where
  region_id : String
  name : String
  x : ℚ := 0
  y : ℚ := 0
  resource_multiplier : ℚ := 1
  danger_level : ℚ := 0
  capacity : Nat := 100
  current_agents : List String := []
deriving DecidableEq

namespace Region

/-- `Region.is_full`. -/
def is_full (r : Region) : Bool := r.current_agents.length ≥ r.capacity

/-- `Region.add_agent`. -/
def add_agent (r : Region) (agent_id : String) : Region :=
  if r.is_full ∨ agent_id ∈ r.current_agents then r
  else { r with current_agents := r.current_agents ++ [agent_id] }

/-- `Region.remove_agent`. -/
def remove_agent (r : Region) (agent_id : String) : Region :=
  { r with current_agents := r.current_agents.erase agent_id }

end Region

/-- `distance` in regions.py is `math.sqrt((a.x-b.x)**2 + (a.y-b.y)**2)`.
The embedding works over ℚ, which has no square root, so the square-root
function is passed in as a parameter `sq` applied to the squared distance;
every theorem below holds for an arbitrary `sq`, in particular for the
real square root. -/
def distance (sq : ℚ → ℚ) (a b : Region) : ℚ :=
  sq ((a.x - b.x) ^ 2 + (a.y - b.y) ^ 2)

/-- `movement_cost_multiplier` from regions.py: `1.0 + dist * 0.5`. -/
def movement_cost_multiplier (sq : ℚ → ℚ) (a b : Region) : ℚ :=
  1 + distance sq a b * (1/2)

/-- `communication_noise_factor` from regions.py: `min(dist * 0.1, 0.8)`. -/
def communication_noise_factor (sq : ℚ → ℚ) (a b : Region) : ℚ :=
  min (distance sq a b * (1/10)) (8/10)

/-- A region map, as held by `RegionManager.regions` (a Python dict). -/
abbrev RegionMap := List (String × Region)

/-- Dict lookup on an association list (first match, like a Python dict
whose keys are unique). -/
def lookupKey {α : Type} (k : String) : List (String × α) → Option α
  | [] => none
  | (k', v) :: rest => if k' = k then some v else lookupKey k rest

/-- Dict update of an existing key: replace the first entry with that key,
leave the list unchanged when the key is absent. -/
def updateKey {α : Type} (k : String) (f : α → α) : List (String × α) → List (String × α)
  | [] => []
  | (k', v) :: rest =>
    if k' = k then (k', f v) :: rest else (k', v) :: updateKey k f rest

/-- Dict assignment `d[k] = v`: replace the entry when the key is present,
append a new entry otherwise. -/
def insertKey {α : Type} (k : String) (v : α) : List (String × α) → List (String × α)
  | [] => [(k, v)]
  | (k', v') :: rest =>
    if k' = k then (k', v) :: rest else (k', v') :: insertKey k v rest

/-! ## Rules engine (world/rules.py) -/

/-- The minimal per-agent view handed to the rules engine by
`WorldState.get_all_agents_summary` (it covers every agent in the map,
dead ones included). -/
structure AgentSummary where
  region : String
  status : String
deriving DecidableEq

abbrev SummaryMap := List (String × AgentSummary)

/-- The `params` dict of a queued action, holding every key any resolver
reads through `params.get`.  A missing key reads as `none` (or as the
recorded default for the amount and content keys, mirroring
`params.get(key, default)`). -/
structure Params where
  target_region : Option String := none
  target_agent : Option String := none
  offer_resource : Option String := none
  offer_amount : ℚ := 0
  request_resource : Option String := none
  request_amount : ℚ := 0
  content : String := ""
  child_name : Option String := none
deriving DecidableEq

/-- Python truthiness of an optional string: `None` and `""` are falsy. -/
def truthy : Option String → Bool
  | none => false
  | some s => s ≠ ""

/-- The `details` dict of an `ActionResult`, one shape per resolver. -/
inductive Details
  | empty
  | move (from_region to_region : String) (cost : Costs)
  | trade (target_agent : String) (offer_resource : String) (offer_amount : ℚ)
      (request_resource : String) (request_amount : ℚ)
  | sendMessage (target_agent : String) (content : String) (noise_factor : ℚ)
      (sender_region receiver_region : String)
  | observe (region : Option Region) (visible_agents : List String)
  | fork (child_name parent_agent spawn_region : String)
  | merge (absorbed_agent surviving_agent : String)
  | attack (target_agent : String) (attacker_strength region_danger : ℚ)
  | ally (target_agent : String)
  | death (cause : String) (region : String) (danger_level : ℚ)
deriving DecidableEq

/-- `ActionResult` from rules.py. -/
structure ActionResult where
  success : Bool
  action_type : String
  agent_id : String
  details : Details
  tick : Int
  error : Option String := none
deriving DecidableEq

/-- Everything a resolver can touch: the outcome, the acting agent's
pool after any debit, and the region map after any occupancy change. -/
structure ResolveOut where
  result : ActionResult
  pool : ResourcePool
  regions : RegionMap
deriving DecidableEq

/-- A failed `ActionResult` with empty details, as built by the failure
branches of the resolvers. -/
def failResult (action_type agent_id : String) (tick : Int) (err : String) : ActionResult :=
  { success := false, action_type := action_type, agent_id := agent_id,
    details := .empty, tick := tick, error := some err }

/-- `RulesEngine._resolve_move`. -/
def resolveMove (sq : ℚ → ℚ) (regions : RegionMap) (agent_id : String) (p : ResourcePool)
    (current_region : String) (params : Params) (tick : Int) (base_costs : Costs) :
    ResolveOut :=
  if truthy params.target_region then
    let tr := params.target_region.getD ""
    match lookupKey current_region regions, lookupKey tr regions with
    | some source, some target =>
      if target.is_full then
        ⟨failResult "move" agent_id tick "Target region full", p, regions⟩
      else
        let multiplier := movement_cost_multiplier sq source target
        let actual_costs : Costs := base_costs.map fun rc => (rc.1, rc.2 * multiplier)
        match p.deduct actual_costs with
        | (false, p') => ⟨failResult "move" agent_id tick "Insufficient resources for move", p', regions⟩
        | (true, p') =>
          let regions1 := updateKey current_region (fun r => r.remove_agent agent_id) regions
          let regions2 := updateKey tr (fun r => r.add_agent agent_id) regions1
          ⟨{ success := true, action_type := "move", agent_id := agent_id,
             details := .move current_region tr actual_costs, tick := tick }, p', regions2⟩
    | _, _ => ⟨failResult "move" agent_id tick "Invalid region", p, regions⟩
  else ⟨failResult "move" agent_id tick "Missing target_region", p, regions⟩

/-- `RulesEngine._resolve_trade`.  Note what the source does and does not
check: the three string parameters must be truthy and the target must be
a key of `all_agents` (dead agents included); the resource strings, the
signs of the amounts and the target's status are not examined. -/
def resolveTrade (regions : RegionMap) (agent_id : String) (p : ResourcePool)
    (current_region : String) (params : Params) (tick : Int) (base_costs : Costs)
    (all_agents : SummaryMap) : ResolveOut :=
  if truthy params.target_agent ∧ truthy params.offer_resource ∧ truthy params.request_resource then
    let ta := params.target_agent.getD ""
    if (lookupKey ta all_agents).isNone then
      ⟨failResult "trade" agent_id tick "Target agent not found", p, regions⟩
    else
      match p.deduct base_costs with
      | (false, p') => ⟨failResult "trade" agent_id tick "Insufficient resources for trade action", p', regions⟩
      | (true, p') =>
        ⟨{ success := true, action_type := "trade", agent_id := agent_id,
           details := .trade ta (params.offer_resource.getD "") params.offer_amount
             (params.request_resource.getD "") params.request_amount, tick := tick }, p', regions⟩
  else ⟨failResult "trade" agent_id tick "Missing trade parameters", p, regions⟩

/-- `RulesEngine._resolve_send_message`. -/
def resolveSendMessage (sq : ℚ → ℚ) (regions : RegionMap) (agent_id : String) (p : ResourcePool)
    (current_region : String) (params : Params) (tick : Int) (base_costs : Costs)
    (all_agents : SummaryMap) : ResolveOut :=
  if truthy params.target_agent then
    let ta := params.target_agent.getD ""
    match lookupKey ta all_agents with
    | none => ⟨failResult "send_message" agent_id tick "Target agent not found", p, regions⟩
    | some summary =>
      match p.deduct base_costs with
      | (false, p') => ⟨failResult "send_message" agent_id tick "Insufficient resources", p', regions⟩
      | (true, p') =>
        let target_region_id := summary.region
        let noise : ℚ :=
          match lookupKey current_region regions, lookupKey target_region_id regions with
          | some source_region, some target_region =>
            communication_noise_factor sq source_region target_region
          | _, _ => 0
        ⟨{ success := true, action_type := "send_message", agent_id := agent_id,
           details := .sendMessage ta params.content noise current_region target_region_id,
           tick := tick }, p', regions⟩
  else ⟨failResult "send_message" agent_id tick "Missing target_agent", p, regions⟩

/-- `RulesEngine._resolve_observe`. -/
def resolveObserve (regions : RegionMap) (agent_id : String) (p : ResourcePool)
    (current_region : String) (tick : Int) (base_costs : Costs) : ResolveOut :=
  match p.deduct base_costs with
  | (false, p') => ⟨failResult "observe" agent_id tick "Insufficient resources", p', regions⟩
  | (true, p') =>
    let region := lookupKey current_region regions
    let visible := (region.map Region.current_agents).getD []
    ⟨{ success := true, action_type := "observe", agent_id := agent_id,
       details := .observe region visible, tick := tick }, p', regions⟩

/-- `RulesEngine._resolve_fork`. -/
def resolveFork (regions : RegionMap) (agent_id : String) (p : ResourcePool)
    (current_region : String) (params : Params) (tick : Int) (base_costs : Costs) :
    ResolveOut :=
  match p.deduct base_costs with
  | (false, p') => ⟨failResult "fork" agent_id tick "Insufficient resources for fork", p', regions⟩
  | (true, p') =>
    let child_name := params.child_name.getD (agent_id ++ "_fork_" ++ toString tick)
    ⟨{ success := true, action_type := "fork", agent_id := agent_id,
       details := .fork child_name agent_id current_region, tick := tick }, p', regions⟩

/-- `RulesEngine._resolve_merge`. -/
def resolveMerge (regions : RegionMap) (agent_id : String) (p : ResourcePool)
    (current_region : String) (params : Params) (tick : Int) (base_costs : Costs)
    (all_agents : SummaryMap) : ResolveOut :=
  if truthy params.target_agent ∧ (lookupKey (params.target_agent.getD "") all_agents).isSome then
    match p.deduct base_costs with
    | (false, p') => ⟨failResult "merge" agent_id tick "Insufficient resources for merge", p', regions⟩
    | (true, p') =>
      ⟨{ success := true, action_type := "merge", agent_id := agent_id,
         details := .merge (params.target_agent.getD "") agent_id, tick := tick }, p', regions⟩
  else ⟨failResult "merge" agent_id tick "Invalid merge target", p, regions⟩

/-- `RulesEngine._resolve_attack`.  The attacker's strength is read from
the pool as left by the debit of the attack cost. -/
def resolveAttack (regions : RegionMap) (agent_id : String) (p : ResourcePool)
    (current_region : String) (params : Params) (tick : Int) (base_costs : Costs)
    (all_agents : SummaryMap) : ResolveOut :=
  if truthy params.target_agent ∧ (lookupKey (params.target_agent.getD "") all_agents).isSome then
    let ta := params.target_agent.getD ""
    let target_region := (lookupKey ta all_agents).map AgentSummary.region
    if target_region ≠ some current_region then
      ⟨failResult "attack" agent_id tick "Target not in same region", p, regions⟩
    else
      match p.deduct base_costs with
      | (false, p') => ⟨failResult "attack" agent_id tick "Insufficient resources for attack", p', regions⟩
      | (true, p') =>
        let attacker_strength := p'.holdings.get .compute + p'.holdings.get .energy
        let danger := ((lookupKey current_region regions).map Region.danger_level).getD 0
        ⟨{ success := true, action_type := "attack", agent_id := agent_id,
           details := .attack ta attacker_strength danger, tick := tick }, p', regions⟩
  else ⟨failResult "attack" agent_id tick "Invalid attack target", p, regions⟩

/-- `RulesEngine._resolve_ally`. -/
def resolveAlly (regions : RegionMap) (agent_id : String) (p : ResourcePool)
    (current_region : String) (params : Params) (tick : Int) (base_costs : Costs)
    (all_agents : SummaryMap) : ResolveOut :=
  if truthy params.target_agent ∧ (lookupKey (params.target_agent.getD "") all_agents).isSome then
    match p.deduct base_costs with
    | (false, p') => ⟨failResult "ally" agent_id tick "Insufficient resources", p', regions⟩
    | (true, p') =>
      ⟨{ success := true, action_type := "ally", agent_id := agent_id,
         details := .ally (params.target_agent.getD ""), tick := tick }, p', regions⟩
  else ⟨failResult "ally" agent_id tick "Invalid ally target", p, regions⟩

/-- The eight action types for which `getattr(self, f"_resolve_{action_type}")`
finds a handler on `RulesEngine`. -/
def hasHandler (action_type : String) : Bool :=
  action_type = "move" ∨ action_type = "trade" ∨ action_type = "send_message" ∨
  action_type = "observe" ∨ action_type = "fork" ∨ action_type = "merge" ∨
  action_type = "attack" ∨ action_type = "ally"

/-- `RulesEngine.validate_and_resolve`: handler lookup, cost-table lookup,
then dispatch to the per-action resolver. -/
def validateAndResolve (sq : ℚ → ℚ) (regions : RegionMap) (action_type agent_id : String)
    (p : ResourcePool) (agent_region : String) (params : Params) (tick : Int)
    (all_agents : SummaryMap) : ResolveOut :=
  if ¬ hasHandler action_type then
    ⟨failResult action_type agent_id tick ("Unknown action type: " ++ action_type), p, regions⟩
  else
    let base_costs := ACTION_COSTS action_type
    if base_costs.isEmpty then
      ⟨failResult action_type agent_id tick ("No cost definition for action: " ++ action_type), p, regions⟩
    else
      match action_type with
      | "move" => resolveMove sq regions agent_id p agent_region params tick base_costs
      | "trade" => resolveTrade regions agent_id p agent_region params tick base_costs all_agents
      | "send_message" => resolveSendMessage sq regions agent_id p agent_region params tick base_costs all_agents
      | "observe" => resolveObserve regions agent_id p agent_region tick base_costs
      | "fork" => resolveFork regions agent_id p agent_region params tick base_costs
      | "merge" => resolveMerge regions agent_id p agent_region params tick base_costs all_agents
      | "attack" => resolveAttack regions agent_id p agent_region params tick base_costs all_agents
      | "ally" => resolveAlly regions agent_id p agent_region params tick base_costs all_agents
      | _ => ⟨failResult action_type agent_id tick ("Unknown action type: " ++ action_type), p, regions⟩

/-! ## World state (world/state.py) and tick-engine side effects (world/engine.py) -/

/-- `AgentState` from state.py.  `status` is one of the strings
"unclaimed", "claimed", "dead", "forked". -/
structure AgentState where
  agent_id : String
  display_name : String
  public_key : String
  region : String
  resources : ResourcePool
  status : String
  owner_identity : Option String := none
  claim_token : Option String := none
  claim_token_expires : Option ℚ := none
  alliances : List String := []
  created_at_tick : Int := 0
  died_at_tick : Option Int := none
  parent_agent : Option String := none
deriving DecidableEq

/-- `AgentState.is_alive`. -/
def AgentState.is_alive (a : AgentState) : Bool :=
  a.status = "unclaimed" ∨ a.status = "claimed"

/-- The parts of `WorldState` the verified operations touch: the current
tick, the agent map and the region map. -/
structure WorldState where
  tick : Int := 0
  agents : List (String × AgentState) := []
  regions : RegionMap := []
deriving DecidableEq

/-- `WorldState.add_agent`: store under the agent's id, then add the id
to the agent's region occupant list (when the region exists; a full
region silently refuses inside `Region.add_agent`). -/
def addAgent (w : WorldState) (a : AgentState) : WorldState :=
  { w with
    agents := insertKey a.agent_id a w.agents
    regions := updateKey a.region (fun r => r.add_agent a.agent_id) w.regions }

/-- `WorldState.remove_agent`: removes the id from its region occupant
list only; the agent stays in the agent map. -/
def removeAgent (w : WorldState) (agent_id : String) : WorldState :=
  match lookupKey agent_id w.agents with
  | none => w
  | some a =>
    { w with regions := updateKey a.region (fun r => r.remove_agent agent_id) w.regions }

/-- `WorldState.get_all_agents_summary`: every agent in the map — dead
ones included — reduced to its region and status. -/
def allAgentsSummary (w : WorldState) : SummaryMap :=
  w.agents.map fun e => (e.1, ⟨e.2.region, e.2.status⟩)

/-- Halve every holding (the fork loop body in
`WorldEngine._apply_side_effects`). -/
def halveQ (q : Quantities) : Quantities :=
  ⟨q.energy / 2, q.bandwidth / 2, q.memory / 2, q.compute / 2⟩

/-- The `fork` branch of `WorldEngine._apply_side_effects`: build the
child from the parent (default pool, then every holding overwritten with
half of the parent's, which is halved symmetrically), then `add_agent`.
The engine reaches this only for an acting agent present in the map; a
missing parent leaves the world unchanged here. -/
def applyForkEffect (w : WorldState) (parentId child_name : String) (tick : Int) : WorldState :=
  match lookupKey parentId w.agents with
  | none => w
  | some parent =>
    let half := halveQ parent.resources.holdings
    let child : AgentState :=
      { agent_id := child_name, display_name := child_name,
        public_key := parent.public_key, region := parent.region,
        resources := { holdings := half, caps := ResourcePool.create_default.caps },
        status := parent.status, owner_identity := parent.owner_identity,
        created_at_tick := tick, parent_agent := some parentId }
    let parent' := { parent with resources := { parent.resources with holdings := half } }
    addAgent { w with agents := updateKey parentId (fun _ => parent') w.agents } child

/-- The merge absorption loop of `WorldEngine._apply_side_effects`:
every holding of the absorbed pool is added to the survivor's, clamped
to the survivor's cap, one resource kind at a time in the holdings
dict's order. -/
def absorbHoldings (survivorPool : ResourcePool) (absorbedH : Quantities) : Quantities :=
  let absorb := fun (h : Quantities) (r : ResourceType) =>
    h.set r (min (h.get r + absorbedH.get r) (survivorPool.caps.get r))
  absorb (absorb (absorb (absorb survivorPool.holdings .energy) .bandwidth) .memory) .compute

/-- The `merge` branch of `WorldEngine._apply_side_effects`: every
holding of the absorbed agent is added to the survivor, clamped to the
survivor's cap; the absorbed agent is marked dead and dropped from its
region occupant list. -/
def applyMergeEffect (w : WorldState) (survivorId absorbedId : String) (tick : Int) : WorldState :=
  match lookupKey absorbedId w.agents, lookupKey survivorId w.agents with
  | some absorbed, some survivor =>
    let newHoldings := absorbHoldings survivor.resources absorbed.resources.holdings
    let survivor' := { survivor with resources := { survivor.resources with holdings := newHoldings } }
    let absorbed' := { absorbed with status := "dead", died_at_tick := some tick }
    let agents' := updateKey absorbedId (fun _ => absorbed')
      (updateKey survivorId (fun _ => survivor') w.agents)
    removeAgent { w with agents := agents' } absorbedId
  | _, _ => w

/-- The `attack` branch of `WorldEngine._apply_side_effects`: damage
`attacker_strength * 0.3` is taken from the target's energy (clamped at
zero); a target left at energy ≤ 0 is marked dead and dropped from its
region occupant list. -/
def applyAttackEffect (w : WorldState) (targetId : String) (attacker_strength : ℚ)
    (tick : Int) : WorldState :=
  match lookupKey targetId w.agents with
  | none => w
  | some target =>
    let damage := attacker_strength * (3/10)
    let target_energy := target.resources.holdings.get .energy
    let newEnergy := max 0 (target_energy - damage)
    let target1 :=
      { target with resources :=
          { target.resources with holdings := target.resources.holdings.set .energy newEnergy } }
    if newEnergy ≤ 0 then
      let target2 := { target1 with status := "dead", died_at_tick := some tick }
      removeAgent { w with agents := updateKey targetId (fun _ => target2) w.agents } targetId
    else
      { w with agents := updateKey targetId (fun _ => target1) w.agents }

/-- `RulesEngine.apply_danger`: drains `danger_level * 5` energy (clamped
at zero) and reports a death result when the remaining energy is ≤ 0.
Regions with `danger_level ≤ 0` — and unknown regions — are skipped
entirely, including their death check. -/
def applyDanger (regions : RegionMap) (agent_id : String) (p : ResourcePool)
    (region_id : String) (tick : Int) : ResourcePool × Option ActionResult :=
  match lookupKey region_id regions with
  | none => (p, none)
  | some region =>
    if region.danger_level ≤ 0 then (p, none)
    else
      let energy_drain := region.danger_level * 5
      let current_energy := p.holdings.get .energy
      let p' := { p with holdings := p.holdings.set .energy (max 0 (current_energy - energy_drain)) }
      if p'.holdings.get .energy ≤ 0 then
        (p', some { success := true, action_type := "death", agent_id := agent_id,
                    details := .death "energy_depletion" region_id region.danger_level,
                    tick := tick })
      else (p', none)

/-! ## Trade ledger (economy/trade.py) -/

/-- `ResourceType(key)` on a string: the four valid names parse, anything
else raises `ValueError` (modelled as `none`). -/
def parseResource : String → Option ResourceType
  | "energy" => some .energy
  | "bandwidth" => some .bandwidth
  | "memory" => some .memory
  | "compute" => some .compute
  | _ => none

/-- `TradeOffer` from trade.py. -/
structure TradeOffer where
  offer_id : String
  tick : Int
  from_agent : String
  to_agent : String
  offer_resource : String
  offer_amount : ℚ
  request_resource : String
  request_amount : ℚ
  status : String := "pending"
  expires_at_tick : Int := 0
deriving DecidableEq

/-- `TradeManager.OFFER_WINDOW_TICKS`. -/
def OFFER_WINDOW_TICKS : Int := 10

/-- `TradeManager.create_offer`.  The manager numbers offers with an
internal counter; the resulting id is passed in explicitly here. -/
def createOffer (offer_id : String) (tick : Int) (from_agent to_agent : String)
    (offer_resource : String) (offer_amount : ℚ) (request_resource : String)
    (request_amount : ℚ) : TradeOffer :=
  { offer_id := offer_id, tick := tick, from_agent := from_agent, to_agent := to_agent,
    offer_resource := offer_resource, offer_amount := offer_amount,
    request_resource := request_resource, request_amount := request_amount,
    status := "pending", expires_at_tick := tick + OFFER_WINDOW_TICKS }

/-- The dict returned by `TradeManager.accept_offer`, reduced to the
fields the claims talk about. -/
structure TradeResult where
  success : Bool
  error : Option String := none
deriving DecidableEq

/-- The state `accept_offer` can read and write: the world's agent map
and the manager's offer map. -/
structure TradeState where
  agents : List (String × AgentState)
  offers : List (String × TradeOffer)
deriving DecidableEq

/-- Replace one holding of one agent, reading the current value (the
shape of every holdings mutation in `accept_offer`). -/
def modifyHolding (r : ResourceType) (f : ℚ → ℚ) (a : AgentState) : AgentState :=
  { a with resources :=
      { a.resources with holdings := a.resources.holdings.set r (f (a.resources.holdings.get r)) } }

/-- Mark the stored offer with a new status (`offer.status = ...` on the
stored object). -/
def setOfferStatus (st : TradeState) (offer_id status : String) : TradeState :=
  { st with offers := updateKey offer_id (fun o => { o with status := status }) st.offers }

/-- `TradeManager.accept_offer`.  All checks run against the state as
found; only when every check passes are the four holdings mutations
applied, in the source's order (offerer debited and accepter credited
with the offered resource, then accepter debited and offerer credited
with the requested resource), and the offer is marked executed.  The
failure branches touch no holdings (some update the offer status). -/
def acceptOffer (st : TradeState) (offer_id accepting_agent : String) (tick : Int) :
    TradeResult × TradeState :=
  match lookupKey offer_id st.offers with
  | none => (⟨false, some "Offer not found"⟩, st)
  | some offer =>
    if offer.status ≠ "pending" then
      (⟨false, some ("Offer is " ++ offer.status)⟩, st)
    else if offer.to_agent ≠ accepting_agent then
      (⟨false, some "Not the intended recipient"⟩, st)
    else if offer.expires_at_tick < tick then
      (⟨false, some "Offer expired"⟩, setOfferStatus st offer_id "expired")
    else
      match lookupKey offer.from_agent st.agents with
      | none => (⟨false, some "Offering agent not available"⟩, setOfferStatus st offer_id "rejected")
      | some fromA =>
        if ¬ fromA.is_alive then
          (⟨false, some "Offering agent not available"⟩, setOfferStatus st offer_id "rejected")
        else
          match lookupKey offer.to_agent st.agents with
          | none => (⟨false, some "Accepting agent not available"⟩, setOfferStatus st offer_id "rejected")
          | some toA =>
            if ¬ toA.is_alive then
              (⟨false, some "Accepting agent not available"⟩, setOfferStatus st offer_id "rejected")
            else
              match parseResource offer.offer_resource, parseResource offer.request_resource with
              | some offerR, some requestR =>
                if fromA.resources.holdings.get offerR < offer.offer_amount then
                  (⟨false, some "Offerer has insufficient resources"⟩, setOfferStatus st offer_id "rejected")
                else if toA.resources.holdings.get requestR < offer.request_amount then
                  (⟨false, some "Accepter has insufficient resources"⟩, setOfferStatus st offer_id "rejected")
                else
                  let a1 := updateKey offer.from_agent
                    (modifyHolding offerR (fun v => v - offer.offer_amount)) st.agents
                  let a2 := updateKey offer.to_agent
                    (modifyHolding offerR (fun v => v + offer.offer_amount)) a1
                  let a3 := updateKey offer.to_agent
                    (modifyHolding requestR (fun v => v - offer.request_amount)) a2
                  let a4 := updateKey offer.from_agent
                    (modifyHolding requestR (fun v => v + offer.request_amount)) a3
                  (⟨true, none⟩, setOfferStatus { st with agents := a4 } offer_id "executed")
              | _, _ =>
                (⟨false, some "Invalid resource type"⟩, setOfferStatus st offer_id "rejected")

/-! ## Agent lifecycle (agents/lifecycle.py) -/

/-- `LifecycleManager.MAX_CLAIM_ATTEMPTS`. -/
def MAX_CLAIM_ATTEMPTS : Nat := 5

/-- The state a `LifecycleManager` works on: its world and its
per-token attempt counters (`self._claim_attempts`). -/
structure LifecycleState where
  world : WorldState
  claim_attempts : List (String × Nat) := []
deriving DecidableEq

/-- The outcome of a lifecycle call: the returned agent, or the message
of the raised `ClaimError`. -/
inductive ClaimOutcome
  | ok (agent : AgentState)
  | err (msg : String)
deriving DecidableEq

/-- `LifecycleManager.get_agent_by_claim_token`: first agent in map
order whose stored token matches. -/
def getAgentByClaimToken (agents : List (String × AgentState)) (claim_token : String) :
    Option AgentState :=
  (agents.find? fun e => e.2.claim_token = some claim_token).map fun e => e.2

/-- `LifecycleManager.validate_claim_token`.  A token already at the
attempt limit is refused before the counter moves; otherwise the counter
is bumped first and the token checks run afterwards, their failure
leaving the bumped counter in place.  The expiry test mirrors Python
truthiness: an expiry of `None` — or the float `0.0` — skips the
comparison. -/
def validateClaimToken (st : LifecycleState) (claim_token : String) (now : ℚ) :
    ClaimOutcome × LifecycleState :=
  let attempts := (lookupKey claim_token st.claim_attempts).getD 0
  if attempts ≥ MAX_CLAIM_ATTEMPTS then
    (.err "Too many claim attempts for this token", st)
  else
    let st1 := { st with claim_attempts := insertKey claim_token (attempts + 1) st.claim_attempts }
    match getAgentByClaimToken st1.world.agents claim_token with
    | none => (.err "Invalid or expired claim token", st1)
    | some agent =>
      if agent.status ≠ "unclaimed" then (.err "Agent already claimed or dead", st1)
      else
        match agent.claim_token_expires with
        | some expiry =>
          if expiry ≠ 0 ∧ now > expiry then (.err "Claim token expired", st1)
          else (.ok agent, st1)
        | none => (.ok agent, st1)

/-- `LifecycleManager.claim_agent`: validates (which may bump the
counter and raise), then marks the found agent claimed, records the
owner and clears the token and its expiry in the same step.  The agent
map keys agents by their `agent_id` field, so mutating the found object
is the update at that key.  `claimUpdate` is the mutation applied to the
agent. -/
def claimUpdate (owner_identity : String) (a : AgentState) : AgentState :=
  { a with
    status := "claimed"
    owner_identity := some owner_identity
    claim_token := none
    claim_token_expires := none }

def claimAgent (st : LifecycleState) (claim_token owner_identity : String) (now : ℚ) :
    ClaimOutcome × LifecycleState :=
  match validateClaimToken st claim_token now with
  | (.err e, st1) => (.err e, st1)
  | (.ok agent, st1) =>
    let st2 := { st1 with world :=
      { st1.world with
        agents := updateKey agent.agent_id (claimUpdate owner_identity) st1.world.agents } }
    (.ok (claimUpdate owner_identity agent), st2)

/-- `LifecycleManager.kill_agent`: marks the agent dead and drops it
from its region occupant list.  It does not touch `claim_token`. -/
def killAgent (st : LifecycleState) (agent_id : String) (tick : Int) : Bool × LifecycleState :=
  match lookupKey agent_id st.world.agents with
  | none => (false, st)
  | some a =>
    if ¬ a.is_alive then (false, st)
    else
      let dead := fun (x : AgentState) => { x with status := "dead", died_at_tick := some tick }
      let w1 := { st.world with agents := updateKey agent_id dead st.world.agents }
      (true, { st with world := removeAgent w1 agent_id })

/-- What `LifecycleManager.get_verification_phrase` returns on success. -/
structure PhraseInfo where
  agent_id : String
  verification_phrase : String
  short_code : String
deriving DecidableEq

/-- The outcome of `get_verification_phrase`. -/
inductive PhraseOutcome
  | ok (info : PhraseInfo)
  | err (msg : String)
deriving DecidableEq

/-- `LifecycleManager.get_verification_phrase`: validates the token —
with the same counter bump — and renders the phrase from the token's
first eight characters uppercased.  The claim page (`GET /claim/<token>`
in web/app.py) calls exactly this. -/
def getVerificationPhrase (st : LifecycleState) (claim_token : String) (now : ℚ) :
    PhraseOutcome × LifecycleState :=
  match validateClaimToken st claim_token now with
  | (.err e, st1) => (.err e, st1)
  | (.ok agent, st1) =>
    let short_code := (claim_token.take 8).toUpper
    let phrase := "I am verifying ownership of my agent on The Observatory. Code: " ++ short_code
    (.ok ⟨agent.agent_id, phrase, short_code⟩, st1)

/-! ## Registration (agents/interface.py) -/

/-- The parts of `RegistrationResult` (interface.py) the claims use. -/
structure RegistrationResult where
  success : Bool
  agent_id : Option String := none
  claim_token : Option String := none
  error : Option String := none
deriving DecidableEq

/-- `AgentGateway.register_agent`.  The proof-of-work and signature
verdicts are passed in as booleans (they are cryptographic checks on
data the claims do not constrain), and `generate_agent_id` — in the
source the SHA-256-derived "agent_" prefix id — is passed in as the
deterministic function `genId`.  The freshly generated claim token and
the current time are also parameters (the source draws them from
`secrets` and `time`).  The spawn region is the region stored under
"nexus" (`RegionManager.get_spawn_region`). -/
def registerAgent (genId : String → String) (w : WorldState) (powOk sigOk : Bool)
    (public_key display_name claim_token : String) (now : ℚ) :
    RegistrationResult × WorldState :=
  if ¬ powOk then (⟨false, none, none, some "Invalid proof-of-work"⟩, w)
  else if ¬ sigOk then (⟨false, none, none, some "Invalid signature"⟩, w)
  else
    let agent_id := genId public_key
    if (lookupKey agent_id w.agents).isSome then
      (⟨false, none, none, some "Agent already registered"⟩, w)
    else
      let agent : AgentState :=
        { agent_id := agent_id,
          display_name := if display_name = "" then agent_id else display_name,
          public_key := public_key,
          region := "nexus",
          resources := ResourcePool.create_default,
          status := "unclaimed",
          claim_token := some claim_token,
          claim_token_expires := some (now + 86400),
          created_at_tick := w.tick }
      (⟨true, some agent_id, some claim_token, none⟩, addAgent w agent)

/-- The death-marking step of `WorldEngine._process_tick` (the block
after `apply_danger` returns a death result): the agent's status is set
to "dead", `died_at_tick` is recorded and the agent leaves its region
occupant list.  With no death result nothing happens. -/
def applyDeathMark (w : WorldState) (agent_id : String) (death : Option ActionResult)
    (tick : Int) : WorldState :=
  match death with
  | none => w
  | some _ =>
    let dead := fun (a : AgentState) => { a with status := "dead", died_at_tick := some tick }
    removeAgent { w with agents := updateKey agent_id dead w.agents } agent_id

/-! ## Concrete instances used by counterexamples and witnesses -/

/-- Concrete world for the C8 witness: one claimed parent whose
post-debit holdings are energy 40, bandwidth 25, memory 50, compute 30. -/
def parentC8 : AgentState :=
  { agent_id := "A", display_name := "A", public_key := "pk1", region := "nexus",
    resources := { holdings := ⟨40, 25, 50, 30⟩, caps := defaultCaps },
    status := "claimed", owner_identity := some "@alice" }

def worldC8 : WorldState :=
  { tick := 7, agents := [("A", parentC8)],
    regions := [("nexus", { region_id := "nexus", name := "The Nexus", danger_level := 1/20,
                            capacity := 200, current_agents := ["A"] })] }

/-- Concrete attack setup: both agents in the wasteland, both holding
energy 50, bandwidth 25, memory 100, compute 40 with default caps. -/
def poolC1 : ResourcePool := { holdings := ⟨50, 25, 100, 40⟩, caps := defaultCaps }

def wastelandC1 : Region :=
  { region_id := "wasteland", name := "The Wasteland", x := -4, y := 3,
    resource_multiplier := 1/2, danger_level := 7/10, capacity := 50,
    current_agents := ["A", "B"] }

def summaryC1 : SummaryMap :=
  [("A", ⟨"wasteland", "claimed"⟩), ("B", ⟨"wasteland", "claimed"⟩)]

/-- The resolution of A's attack on B in the concrete setup. -/
def outC1 : ResolveOut :=
  resolveAttack [("wasteland", wastelandC1)] "A" poolC1 "wasteland"
    { target_agent := some "B" } 3 (ACTION_COSTS "attack") summaryC1

def agentB1 : AgentState :=
  { agent_id := "B", display_name := "B", public_key := "pkB", region := "wasteland",
    resources := poolC1, status := "claimed" }

def worldC1 : WorldState :=
  { tick := 3, agents := [("B", agentB1)], regions := [("wasteland", wastelandC1)] }

/-- Concrete setup for C7: an alive agent with zero energy in a region
whose danger level is zero. -/
def poolC7 : ResourcePool := { holdings := ⟨0, 25, 100, 40⟩, caps := defaultCaps }

def flatC7 : Region :=
  { region_id := "flat", name := "Flatland", danger_level := 0, capacity := 100,
    current_agents := ["A"] }

/-- Concrete setup for C6: the trade target "B" is dead, the offered
resource string "gold" is not a resource kind, and the offered amount is
negative. -/
def summaryC6 : SummaryMap := [("B", ⟨"wasteland", "dead"⟩)]

def paramsC6 : Params :=
  { target_agent := some "B", offer_resource := some "gold", offer_amount := -5,
    request_resource := some "energy", request_amount := 5 }

def outC6 : ResolveOut :=
  resolveTrade [] "A" ResourcePool.create_default "nexus" paramsC6 2
    (ACTION_COSTS "trade") summaryC6

/-- Concrete lifecycle setup for C9 and C10: a single unclaimed agent
holding the claim token "tok12345" that expires at time 1000. -/
def agentC10 : AgentState :=
  { agent_id := "A", display_name := "A", public_key := "pk", region := "nexus",
    resources := ResourcePool.create_default, status := "unclaimed",
    claim_token := some "tok12345", claim_token_expires := some 1000 }

def lsC10 : LifecycleState :=
  { world := { tick := 0, agents := [("A", agentC10)], regions := [] } }

/-- One validation call at time 5 (well before expiry), keeping only the
state — the shape of a claim-page view. -/
def stepC10 (s : LifecycleState) : LifecycleState :=
  (validateClaimToken s "tok12345" 5).2

/-- The agent as it looks after a successful claim by "@bob". -/
def claimedC9 : AgentState :=
  { agentC10 with
    status := "claimed"
    owner_identity := some "@bob"
    claim_token := none
    claim_token_expires := none }

def stC9 : LifecycleState :=
  { world := { tick := 0, agents := [("A", claimedC9)], regions := [] },
    claim_attempts := [("tok12345", 1)] }

/-- A deterministic stand-in for `generate_agent_id` in C2's witness
(the source derives the id from a SHA-256 digest of the key; only
determinism matters to the claims). -/
def genIdW : String → String := fun pk => "agent_" ++ pk

def agentW2 : AgentState :=
  { agent_id := "agent_pk1", display_name := "agent_pk1", public_key := "pk1",
    region := "nexus", resources := ResourcePool.create_default, status := "unclaimed",
    claim_token := some "t1", claim_token_expires := some 100 }

def worldW2 : WorldState := { tick := 0, agents := [("agent_pk1", agentW2)], regions := [] }

/-- A world in which every stored agent sits under its own id and that
id is the one registration derives from its public key — the shape every
world reachable through `register_agent` alone has. -/
def RegisteredWorld (genId : String → String) (w : WorldState) : Prop :=
  ∀ e ∈ w.agents, (e.2 : AgentState).agent_id = e.1 ∧ e.1 = genId (e.2 : AgentState).public_key

/-- Every holding non-negative and within its cap — the invariant the
spec asserts after every resolution step. -/
def InBounds (p : ResourcePool) : Prop :=
  ∀ r, 0 ≤ p.holdings.get r ∧ p.holdings.get r ≤ p.caps.get r

/-- Concrete trade setup for C3 and C4: A offers B 10 energy for 5
compute; B already holds 95 energy against a cap of 100. -/
def offerC3 : TradeOffer := createOffer "t1" 1 "A" "B" "energy" 10 "compute" 5

def agentA3 : AgentState :=
  { agent_id := "A", display_name := "A", public_key := "pkA", region := "nexus",
    resources := { holdings := ⟨50, 25, 100, 40⟩, caps := defaultCaps }, status := "claimed" }

def agentB3 : AgentState :=
  { agent_id := "B", display_name := "B", public_key := "pkB", region := "nexus",
    resources := { holdings := ⟨95, 25, 100, 40⟩, caps := defaultCaps }, status := "claimed" }

def tsC3 : TradeState :=
  { agents := [("A", agentA3), ("B", agentB3)], offers := [("t1", offerC3)] }

/-! ## Association-list lemmas -/

theorem lookupKey_updateKey_self {α : Type} (k : String) (f : α → α) (l : List (String × α)) :
    lookupKey k (updateKey k f l) = (lookupKey k l).map f := by
  induction l with
  | nil => rfl
  | cons e rest ih =>
    obtain ⟨k', v⟩ := e
    by_cases h : k' = k
    · simp [lookupKey, updateKey, h]
    · simp [lookupKey, updateKey, h, ih]

theorem lookupKey_updateKey_ne {α : Type} (k k' : String) (h : k ≠ k') (f : α → α)
    (l : List (String × α)) : lookupKey k (updateKey k' f l) = lookupKey k l := by
  induction l with
  | nil => rfl
  | cons e rest ih =>
    obtain ⟨k0, v⟩ := e
    by_cases h0 : k0 = k'
    · subst h0
      simp [lookupKey, updateKey, Ne.symm h]
    · by_cases h1 : k0 = k <;> simp [lookupKey, updateKey, h0, h1, h, ih]

theorem lookupKey_insertKey_self {α : Type} (k : String) (v : α) (l : List (String × α)) :
    lookupKey k (insertKey k v l) = some v := by
  induction l with
  | nil => simp [lookupKey, insertKey]
  | cons e rest ih =>
    obtain ⟨k0, v0⟩ := e
    by_cases h : k0 = k <;> simp [lookupKey, insertKey, h, ih]

theorem lookupKey_insertKey_ne {α : Type} (k k' : String) (h : k ≠ k') (v : α)
    (l : List (String × α)) : lookupKey k (insertKey k' v l) = lookupKey k l := by
  induction l with
  | nil => simp [lookupKey, insertKey, Ne.symm h]
  | cons e rest ih =>
    obtain ⟨k0, v0⟩ := e
    by_cases h0 : k0 = k'
    · subst h0
      simp [lookupKey, insertKey, Ne.symm h]
    · by_cases h1 : k0 = k <;> simp [lookupKey, insertKey, h0, h1, h, ih]

theorem mem_insertKey {α : Type} (k : String) (v : α) (l : List (String × α)) (e : String × α)
    (he : e ∈ insertKey k v l) : e ∈ l ∨ e = (k, v) := by
  induction l with
  | nil => simpa [insertKey] using he
  | cons e0 rest ih =>
    obtain ⟨k0, v0⟩ := e0
    by_cases h : k0 = k
    · simp only [insertKey, if_pos h] at he
      rcases List.mem_cons.mp he with h1 | h1
      · right; rw [h1, h]
      · left; exact List.mem_cons_of_mem _ h1
    · simp only [insertKey, if_neg h] at he
      rcases List.mem_cons.mp he with h1 | h1
      · left; exact h1 ▸ List.mem_cons_self _ _
      · rcases ih h1 with h2 | h2
        · left; exact List.mem_cons_of_mem _ h2
        · right; exact h2

theorem mem_updateKey {α : Type} (k : String) (f : α → α) (l : List (String × α)) (e : String × α)
    (hnd : (l.map Prod.fst).Nodup) (he : e ∈ updateKey k f l) :
    (e ∈ l ∧ e.1 ≠ k) ∨ ∃ v, (k, v) ∈ l ∧ e = (k, f v) := by
  induction l with
  | nil => simp [updateKey] at he
  | cons e0 rest ih =>
    obtain ⟨k0, v0⟩ := e0
    simp only [List.map_cons, List.nodup_cons] at hnd
    by_cases h : k0 = k
    · subst h
      simp only [updateKey, if_pos rfl] at he
      rcases List.mem_cons.mp he with h1 | h1
      · right; exact ⟨v0, List.mem_cons_self _ _, h1⟩
      · left
        refine ⟨List.mem_cons_of_mem _ h1, fun h2 => ?_⟩
        exact hnd.1 (h2 ▸ List.mem_map.mpr ⟨e, h1, rfl⟩)
    · simp only [updateKey, if_neg h] at he
      rcases List.mem_cons.mp he with h1 | h1
      · subst h1
        left
        exact ⟨List.mem_cons_self _ _, h⟩
      · rcases ih hnd.2 h1 with ⟨h2, h3⟩ | ⟨v, h2, h3⟩
        · left; exact ⟨List.mem_cons_of_mem _ h2, h3⟩
        · right; exact ⟨v, List.mem_cons_of_mem _ h2, h3⟩

theorem keys_insertKey {α : Type} (k : String) (v : α) (l : List (String × α))
    (hnd : (l.map Prod.fst).Nodup) : ((insertKey k v l).map Prod.fst).Nodup := by
  induction l with
  | nil => simp [insertKey]
  | cons e0 rest ih =>
    obtain ⟨k0, v0⟩ := e0
    simp only [List.map_cons, List.nodup_cons] at hnd
    by_cases h : k0 = k
    · simp only [insertKey, if_pos h, List.map_cons, List.nodup_cons]
      exact hnd
    · simp only [insertKey, if_neg h, List.map_cons, List.nodup_cons]
      refine ⟨fun hx => ?_, ih hnd.2⟩
      rcases List.mem_map.mp hx with ⟨e, he, hfst⟩
      rcases mem_insertKey k v rest e he with h1 | h1
      · exact hnd.1 (hfst ▸ List.mem_map.mpr ⟨e, h1, rfl⟩)
      · exact h (by rw [← hfst, h1])

theorem lookupKey_of_mem {α : Type} (l : List (String × α)) (e : String × α)
    (hnd : (l.map Prod.fst).Nodup) (he : e ∈ l) : lookupKey e.1 l = some e.2 := by
  induction l with
  | nil => simp at he
  | cons e0 rest ih =>
    obtain ⟨k0, v0⟩ := e0
    simp only [List.map_cons, List.nodup_cons] at hnd
    rcases List.mem_cons.mp he with h1 | h1
    · subst h1
      simp [lookupKey]
    · have hk : k0 ≠ e.1 := by
        intro h
        exact hnd.1 (h ▸ (List.mem_map.mpr ⟨e, h1, rfl⟩))
      simp [lookupKey, hk, ih hnd.2 h1]

theorem isSome_lookupKey_of_mem {α : Type} (l : List (String × α)) (k : String) (v : α)
    (he : (k, v) ∈ l) : (lookupKey k l).isSome := by
  induction l with
  | nil => simp at he
  | cons e0 rest ih =>
    obtain ⟨k0, v0⟩ := e0
    by_cases h : k0 = k
    · simp [lookupKey, h]
    · rcases List.mem_cons.mp he with h1 | h1
      · exact absurd (congrArg Prod.fst h1).symm h
      · simpa [lookupKey, h] using ih h1

theorem Quantities.get_set (q : Quantities) (r r' : ResourceType) (v : ℚ) :
    (q.set r' v).get r = if r = r' then v else q.get r := by
  cases r <;> cases r' <;> simp [Quantities.get, Quantities.set]

theorem modifyHolding_get (r r' : ResourceType) (f : ℚ → ℚ) (a : AgentState) :
    (modifyHolding r' f a).resources.holdings.get r
      = if r = r' then f (a.resources.holdings.get r') else a.resources.holdings.get r := by
  simp only [modifyHolding]
  exact Quantities.get_set _ _ _ _

theorem modifyHolding_caps (r' : ResourceType) (f : ℚ → ℚ) (a : AgentState) :
    (modifyHolding r' f a).resources.caps = a.resources.caps := rfl

theorem absorbHoldings_get (sp : ResourcePool) (ah : Quantities) (r : ResourceType) :
    (absorbHoldings sp ah).get r
      = min (sp.holdings.get r + ah.get r) (sp.caps.get r) := by
  cases r <;> rfl

/-- Subtracting a duplicate-free, affordable, non-negative cost list
leaves every holding non-negative and no larger than before. -/
theorem subtractAll_bounds (costs : Costs) :
    ∀ (q : Quantities), ((costs.map Prod.fst).Nodup) →
    (∀ rc ∈ costs, 0 ≤ rc.2 ∧ rc.2 ≤ q.get rc.1) →
    (∀ r, 0 ≤ q.get r) → ∀ r,
    0 ≤ (ResourcePool.subtractAll q costs).get r ∧
      (ResourcePool.subtractAll q costs).get r ≤ q.get r := by
  induction costs with
  | nil =>
    intro q hnd hc hq r
    exact ⟨hq r, le_refl _⟩
  | cons rc rest ih =>
    intro q hnd hc hq r
    obtain ⟨r0, a0⟩ := rc
    simp only [List.map_cons, List.nodup_cons] at hnd
    have hhead := hc (r0, a0) (List.mem_cons_self _ _)
    have hfold : ResourcePool.subtractAll q ((r0, a0) :: rest)
        = ResourcePool.subtractAll (q.set r0 (q.get r0 - a0)) rest := rfl
    have hq' : ∀ r', 0 ≤ (q.set r0 (q.get r0 - a0)).get r' := by
      intro r'
      rw [Quantities.get_set]
      split
      · linarith [hhead.2]
      · exact hq r'
    have hc' : ∀ rc ∈ rest, 0 ≤ rc.2 ∧ rc.2 ≤ (q.set r0 (q.get r0 - a0)).get rc.1 := by
      intro rc hrc
      have h2 := hc rc (List.mem_cons_of_mem _ hrc)
      have hne : rc.1 ≠ r0 := fun h =>
        hnd.1 (h ▸ List.mem_map.mpr ⟨rc, hrc, rfl⟩)
      rw [Quantities.get_set, if_neg hne]
      exact h2
    have hmono : (q.set r0 (q.get r0 - a0)).get r ≤ q.get r := by
      rw [Quantities.get_set]
      split
      · rename_i hr
        rw [hr]
        linarith [hhead.1]
      · exact le_refl _
    rw [hfold]
    obtain ⟨ihl, ihr⟩ := ih (q.set r0 (q.get r0 - a0)) hnd.2 hc' hq' r
    exact ⟨ihl, le_trans ihr hmono⟩

/-! ## Claim C8 -/

/-- C8: after a successful fork whose cost debit left the parent with
holdings `h`, the parent and the new child each hold exactly `h/2` of
every resource kind; the child is created in the parent's region with
default caps, inherits the parent's public key, status and owner
identity, and has `parent_agent` set to the parent's id. -/
theorem fork_halves_resources (w : WorldState) (parentId child_name : String) (tick : Int)
    (parent : AgentState) (hp : lookupKey parentId w.agents = some parent)
    (hne : child_name ≠ parentId) :
    (∃ child, lookupKey child_name (applyForkEffect w parentId child_name tick).agents = some child ∧
      (∀ r, child.resources.holdings.get r = parent.resources.holdings.get r / 2) ∧
      child.resources.caps = defaultCaps ∧
      child.region = parent.region ∧
      child.public_key = parent.public_key ∧
      child.status = parent.status ∧
      child.owner_identity = parent.owner_identity ∧
      child.parent_agent = some parentId ∧
      child.created_at_tick = tick) ∧
    (∃ parent1, lookupKey parentId (applyForkEffect w parentId child_name tick).agents = some parent1 ∧
      (∀ r, parent1.resources.holdings.get r = parent.resources.holdings.get r / 2) ∧
      parent1.resources.caps = parent.resources.caps) := by
  simp only [applyForkEffect, hp, addAgent]
  constructor
  · refine ⟨_, lookupKey_insertKey_self _ _ _, ?_, rfl, rfl, rfl, rfl, rfl, rfl, rfl⟩
    intro r
    cases r <;> simp [halveQ, Quantities.get]
  · rw [lookupKey_insertKey_ne _ _ (Ne.symm hne), lookupKey_updateKey_self, hp]
    refine ⟨_, rfl, ?_, rfl⟩
    intro r
    cases r <;> simp [halveQ, Quantities.get]

/-- Witness for C8 at the concrete world above. -/
theorem fork_halves_resources_witness :
    (∃ child, lookupKey "child1" (applyForkEffect worldC8 "A" "child1" 7).agents = some child ∧
      (∀ r, child.resources.holdings.get r = parentC8.resources.holdings.get r / 2) ∧
      child.resources.caps = defaultCaps ∧
      child.region = parentC8.region ∧
      child.public_key = parentC8.public_key ∧
      child.status = parentC8.status ∧
      child.owner_identity = parentC8.owner_identity ∧
      child.parent_agent = some "A" ∧
      child.created_at_tick = 7) ∧
    (∃ parent1, lookupKey "A" (applyForkEffect worldC8 "A" "child1" 7).agents = some parent1 ∧
      (∀ r, parent1.resources.holdings.get r = parentC8.resources.holdings.get r / 2) ∧
      parent1.resources.caps = parentC8.resources.caps) :=
  fork_halves_resources worldC8 "A" "child1" 7 parentC8 (by simp [worldC8, lookupKey])
    (by decide)

/-- `WorldState.remove_agent` never touches the agent map, only the
region occupant lists. -/
theorem removeAgent_agents (w : WorldState) (agent_id : String) :
    (removeAgent w agent_id).agents = w.agents := by
  simp only [removeAgent]
  cases lookupKey agent_id w.agents <;> rfl

/-! ## Claim C1 -/

/-- Counterexample to C1: an attacker holding energy 50 and compute 40
when the attack resolves has the attack cost (energy 15, compute 10)
debited before its strength is read, so the resolved strength is 65
rather than 90, the damage applied is 19.5 rather than 27, and the
target's energy drops from 50 to 30.5 rather than to 23. -/
theorem attack_damage_counterexample :
    outC1.result.success = true ∧
    outC1.result.details = Details.attack "B" 65 (7/10) ∧
    (65 : ℚ) * (3/10) ≠ 27 ∧
    ((lookupKey "B" (applyAttackEffect worldC1 "B" 65 3).agents).map
        fun a => a.resources.holdings.get ResourceType.energy) = some (61/2) ∧
    (61/2 : ℚ) ≠ 23 := by
  have hB : ¬(("B" : String) = "") := by decide
  refine ⟨?_, ?_, by norm_num, ?_, by norm_num⟩
  · norm_num [outC1, resolveAttack, poolC1, summaryC1, wastelandC1, ACTION_COSTS,
      ResourcePool.deduct, ResourcePool.can_afford, ResourcePool.subtractAll,
      Quantities.get, Quantities.set, lookupKey, truthy, hB]
  · norm_num [outC1, resolveAttack, poolC1, summaryC1, wastelandC1, ACTION_COSTS,
      ResourcePool.deduct, ResourcePool.can_afford, ResourcePool.subtractAll,
      Quantities.get, Quantities.set, lookupKey, truthy, hB]
  · norm_num [applyAttackEffect, worldC1, agentB1, poolC1, lookupKey, updateKey,
      removeAgent, Quantities.get, Quantities.set]

/-- C1 as amended: for every attack that resolves successfully, the
strength recorded in the result — from which the tick engine computes
damage `strength * 0.3` — equals the attacker's compute plus energy
after the attack cost (energy 15, compute 10) has been debited; the side
effect sets the target's energy to `max 0 (energy - damage)` and marks
the target dead this tick exactly when energy minus damage is ≤ 0. -/
theorem attack_damage_amended :
    (∀ (regions : RegionMap) (agent_id : String) (p : ResourcePool) (cr : String)
      (params : Params) (tick : Int) (all_agents : SummaryMap) (ta : String) (s d : ℚ),
      (resolveAttack regions agent_id p cr params tick (ACTION_COSTS "attack") all_agents).result.details
          = Details.attack ta s d →
      s = (p.holdings.get .compute - 10) + (p.holdings.get .energy - 15)) ∧
    (∀ (w : WorldState) (targetId : String) (strength : ℚ) (tick : Int) (target : AgentState),
      lookupKey targetId w.agents = some target →
      ((lookupKey targetId (applyAttackEffect w targetId strength tick).agents).map
          fun a => a.resources.holdings.get ResourceType.energy)
        = some (max 0 (target.resources.holdings.get .energy - strength * (3/10))) ∧
      ((lookupKey targetId (applyAttackEffect w targetId strength tick).agents).map
          AgentState.status)
        = some (if target.resources.holdings.get .energy - strength * (3/10) ≤ 0
                then "dead" else target.status) ∧
      ((lookupKey targetId (applyAttackEffect w targetId strength tick).agents).map
          AgentState.died_at_tick)
        = some (if target.resources.holdings.get .energy - strength * (3/10) ≤ 0
                then some tick else target.died_at_tick)) := by
  constructor
  · intro regions agent_id p cr params tick all_agents ta s d h
    simp only [resolveAttack] at h
    split at h
    · split at h
      · simp [failResult] at h
      · split at h
        next p' heq =>
          simp [failResult] at h
        next p' heq =>
          rw [ResourcePool.deduct] at heq
          split at heq
          · injection heq with hb hp'
            subst hp'
            simp only [Details.attack.injEq] at h
            rcases h with ⟨-, h2, -⟩
            rw [← h2]
            simp [ResourcePool.subtractAll, ACTION_COSTS, Quantities.get, Quantities.set]
          · injection heq with hb hp'
            simp at hb
    · simp [failResult] at h
  · intro w targetId strength tick target htarget
    have hmax : max 0 (target.resources.holdings.get .energy - strength * (3/10)) ≤ 0
        ↔ target.resources.holdings.get .energy - strength * (3/10) ≤ 0 := by
      constructor
      · intro h
        exact le_trans (le_max_right _ _) h
      · intro h
        simpa using h
    simp only [applyAttackEffect, htarget]
    by_cases hd : target.resources.holdings.get .energy - strength * (3/10) ≤ 0
    · rw [if_pos (hmax.mpr hd), removeAgent_agents, lookupKey_updateKey_self, htarget,
        if_pos hd, if_pos hd]
      refine ⟨?_, rfl, rfl⟩
      simp [Quantities.get, Quantities.set]
    · rw [if_neg (fun hc => hd (hmax.mp hc)), lookupKey_updateKey_self, htarget,
        if_neg hd, if_neg hd]
      refine ⟨?_, rfl, rfl⟩
      simp [Quantities.get, Quantities.set]

/-- Witness for the amended C1 at the concrete attack above. -/
theorem attack_damage_amended_witness :
    ((65 : ℚ) = (poolC1.holdings.get .compute - 10) + (poolC1.holdings.get .energy - 15)) ∧
    (((lookupKey "B" (applyAttackEffect worldC1 "B" 65 3).agents).map
        fun a => a.resources.holdings.get ResourceType.energy)
      = some (max 0 (agentB1.resources.holdings.get .energy - 65 * (3/10)))) := by
  have hB : ¬(("B" : String) = "") := by decide
  constructor
  · exact attack_damage_amended.1 [("wasteland", wastelandC1)] "A" poolC1 "wasteland"
      { target_agent := some "B" } 3 summaryC1 "B" 65 (7/10)
      (by norm_num [resolveAttack, poolC1, summaryC1, wastelandC1, ACTION_COSTS,
        ResourcePool.deduct, ResourcePool.can_afford, ResourcePool.subtractAll,
        Quantities.get, Quantities.set, lookupKey, truthy, hB])
  · exact (attack_damage_amended.2 worldC1 "B" 65 3 agentB1
      (by simp [worldC1, lookupKey])).1

/-! ## Claim C7 -/

/-- Counterexample to C7: an alive agent with energy 0 in a region whose
danger level is 0 ends the danger step with energy 0, yet `apply_danger`
returns no death result — the `danger_level <= 0` early return skips the
death check — so the agent is not marked dead although its resulting
energy is 0. -/
theorem danger_death_counterexample :
    (applyDanger [("flat", flatC7)] "A" poolC7 "flat" 4).2 = none ∧
    (applyDanger [("flat", flatC7)] "A" poolC7 "flat" 4).1.holdings.get ResourceType.energy = 0 ∧
    ((lookupKey "A" (applyDeathMark ⟨4, [("A", agentB1)], []⟩ "A"
        (applyDanger [("flat", flatC7)] "A" poolC7 "flat" 4).2 4).agents).map
      AgentState.status) = some "claimed" := by
  refine ⟨?_, ?_, ?_⟩ <;>
    norm_num [applyDanger, applyDeathMark, lookupKey, flatC7, poolC7, agentB1,
      Quantities.get]

/-- C7 as amended: in a region with positive danger level `d` the danger
step sets the agent's energy to `max 0 (energy - 5 d)` and yields a
death result — with cause `energy_depletion` at this tick — exactly when
`energy - 5 d ≤ 0`; in a region with `danger_level ≤ 0` the pool is
untouched and no death is possible, even at energy 0.  The engine marks
the agent dead at that tick exactly when a death result was returned. -/
theorem danger_tick_amended (regions : RegionMap) (agent_id : String) (p : ResourcePool)
    (region_id : String) (tick : Int) (region : Region)
    (hr : lookupKey region_id regions = some region) :
    (0 < region.danger_level →
      (applyDanger regions agent_id p region_id tick).1.holdings
        = p.holdings.set .energy (max 0 (p.holdings.get .energy - region.danger_level * 5)) ∧
      ((applyDanger regions agent_id p region_id tick).2.isSome
        ↔ p.holdings.get .energy - region.danger_level * 5 ≤ 0) ∧
      (∀ res, (applyDanger regions agent_id p region_id tick).2 = some res →
        res.action_type = "death" ∧
        res.details = .death "energy_depletion" region_id region.danger_level ∧
        res.tick = tick)) ∧
    (region.danger_level ≤ 0 →
      (applyDanger regions agent_id p region_id tick).1 = p ∧
      (applyDanger regions agent_id p region_id tick).2 = none) ∧
    (∀ (w : WorldState) (a : AgentState) (death : Option ActionResult),
      lookupKey agent_id w.agents = some a →
      ((lookupKey agent_id (applyDeathMark w agent_id death tick).agents).map AgentState.status)
        = some (if death.isSome then "dead" else a.status)) := by
  refine ⟨?_, ?_, ?_⟩
  · intro hd
    have hd' : ¬ region.danger_level ≤ 0 := not_le.mpr hd
    have hmax : max 0 (p.holdings.get .energy - region.danger_level * 5) ≤ 0
        ↔ p.holdings.get .energy - region.danger_level * 5 ≤ 0 := by
      constructor
      · intro h
        exact le_trans (le_max_right _ _) h
      · intro h
        simpa using h
    simp only [applyDanger, hr, if_neg hd']
    by_cases he : p.holdings.get .energy - region.danger_level * 5 ≤ 0
    · rw [if_pos ?side]
      case side =>
        simpa [Quantities.get, Quantities.set] using hmax.mpr he
      refine ⟨rfl, by simpa using he, ?_⟩
      intro res hres
      simp only [Option.some.injEq] at hres
      subst hres
      exact ⟨rfl, rfl, rfl⟩
    · rw [if_neg ?side]
      case side =>
        intro hc
        exact he (hmax.mp (by simpa [Quantities.get, Quantities.set] using hc))
      refine ⟨rfl, by simpa using he, fun res hres => by simp at hres⟩
  · intro hd
    simp [applyDanger, hr, if_pos hd]
  · intro w a death ha
    cases death with
    | none => simp [applyDeathMark, ha]
    | some res =>
      simp only [applyDeathMark, removeAgent_agents, lookupKey_updateKey_self, ha,
        Option.map_some, Option.isSome_some, if_true]
      rfl

/-- Witness for the amended C7: the wasteland (danger 0.7) drains 3.5
energy from a full-energy agent and yields no death there. -/
theorem danger_tick_amended_witness :
    (applyDanger [("wasteland", wastelandC1)] "B" poolC1 "wasteland" 3).1.holdings
      = poolC1.holdings.set .energy
          (max 0 (poolC1.holdings.get .energy - wastelandC1.danger_level * 5)) ∧
    ((applyDanger [("wasteland", wastelandC1)] "B" poolC1 "wasteland" 3).2.isSome
      ↔ poolC1.holdings.get .energy - wastelandC1.danger_level * 5 ≤ 0) := by
  have h := danger_tick_amended [("wasteland", wastelandC1)] "B" poolC1 "wasteland" 3
    wastelandC1 (by simp [lookupKey])
  have h1 := h.1 (by norm_num [wastelandC1])
  exact ⟨h1.1, h1.2.1⟩

/-! ## Claim C6 -/

/-- Counterexample to C6: a trade action aimed at a dead agent, naming
the invalid resource string "gold" and offering a negative amount,
nevertheless resolves with success — `_resolve_trade` checks only that
the three string parameters are non-empty and that the target id is a
key of the agent summary map. -/
theorem trade_resolution_counterexample :
    outC6.result.success = true ∧
    (lookupKey "B" summaryC6).map AgentSummary.status = some "dead" ∧
    parseResource (paramsC6.offer_resource.getD "") = none ∧
    paramsC6.offer_amount < 0 := by
  have hB : ¬(("B" : String) = "") := by decide
  have hG : ¬(("gold" : String) = "") := by decide
  have hE : ¬(("energy" : String) = "") := by decide
  refine ⟨?_, by simp [summaryC6, lookupKey], by simp [paramsC6, parseResource], by
    norm_num [paramsC6]⟩
  norm_num [outC6, resolveTrade, paramsC6, summaryC6, ACTION_COSTS, ResourcePool.deduct,
    ResourcePool.can_afford, ResourcePool.create_default, defaultInitial,
    ResourcePool.subtractAll, Quantities.get, Quantities.set, lookupKey, truthy,
    hB, hG, hE]

/-- C6 as amended: resolving a trade action succeeds exactly when the
three string parameters are non-empty, the target id is present in the
agent summary map — whatever its status — and the sender can afford the
action cost; the target's aliveness, the validity of the resource
strings and the signs of the amounts are not checked at resolution
(they are checked later, at offer acceptance).  When resolution fails
the sender's pool is unchanged. -/
theorem trade_resolution_amended (regions : RegionMap) (agent_id : String) (p : ResourcePool)
    (cr : String) (params : Params) (tick : Int) (all_agents : SummaryMap) :
    ((resolveTrade regions agent_id p cr params tick (ACTION_COSTS "trade") all_agents).result.success = true
      ↔ (truthy params.target_agent ∧ truthy params.offer_resource ∧
          truthy params.request_resource ∧
          (lookupKey (params.target_agent.getD "") all_agents).isSome ∧
          p.can_afford (ACTION_COSTS "trade") = true)) ∧
    ((resolveTrade regions agent_id p cr params tick (ACTION_COSTS "trade") all_agents).result.success = false
      → (resolveTrade regions agent_id p cr params tick (ACTION_COSTS "trade") all_agents).pool = p) := by
  by_cases h1 : truthy params.target_agent ∧ truthy params.offer_resource ∧
      truthy params.request_resource
  · rcases hopt : lookupKey (params.target_agent.getD "") all_agents with _ | summ
    · simp [resolveTrade, h1, hopt, failResult]
    · by_cases hca : p.can_afford (ACTION_COSTS "trade")
      · simp [resolveTrade, h1, hopt, ResourcePool.deduct, hca, failResult]
      · simp [resolveTrade, h1, hopt, ResourcePool.deduct, hca, failResult]
  · constructor
    · simp only [resolveTrade, if_neg h1, failResult]
      constructor
      · intro hc
        simp at hc
      · intro hc
        exact absurd ⟨hc.1, hc.2.1, hc.2.2.1⟩ h1
    · intro _
      simp [resolveTrade, if_neg h1, failResult]

/-- Witness for the amended C6: a trade with no parameters fails and
leaves the default pool untouched. -/
theorem trade_resolution_amended_witness :
    (resolveTrade [] "A" ResourcePool.create_default "nexus" {} 2
      (ACTION_COSTS "trade") []).pool = ResourcePool.create_default :=
  (trade_resolution_amended [] "A" ResourcePool.create_default "nexus" {} 2 []).2
    (by simp [resolveTrade, truthy, failResult])

/-! ## Claim C5 -/

/-- A failing `deduct` leaves the pool exactly as it was. -/
theorem deduct_false_eq (p : ResourcePool) (costs : Costs) (p' : ResourcePool)
    (h : p.deduct costs = (false, p')) : p' = p := by
  rw [ResourcePool.deduct] at h
  split at h
  · exact absurd (congrArg Prod.fst h) (by simp)
  · exact (congrArg Prod.snd h).symm

theorem resolveMove_fail (sq : ℚ → ℚ) (regions : RegionMap) (agent_id : String)
    (p : ResourcePool) (cr : String) (params : Params) (tick : Int) (costs : Costs) :
    (resolveMove sq regions agent_id p cr params tick costs).result.success = false →
    (resolveMove sq regions agent_id p cr params tick costs).pool = p := by
  simp only [resolveMove]
  repeat' split
  all_goals intro h
  all_goals first
    | rfl
    | (rename_i p' heq; exact deduct_false_eq _ _ _ heq)
    | exact absurd h (by simp)

theorem resolveTrade_fail (regions : RegionMap) (agent_id : String)
    (p : ResourcePool) (cr : String) (params : Params) (tick : Int) (costs : Costs)
    (all_agents : SummaryMap) :
    (resolveTrade regions agent_id p cr params tick costs all_agents).result.success = false →
    (resolveTrade regions agent_id p cr params tick costs all_agents).pool = p := by
  simp only [resolveTrade]
  repeat' split
  all_goals intro h
  all_goals first
    | rfl
    | (rename_i p' heq; exact deduct_false_eq _ _ _ heq)
    | exact absurd h (by simp)

theorem resolveSendMessage_fail (sq : ℚ → ℚ) (regions : RegionMap) (agent_id : String)
    (p : ResourcePool) (cr : String) (params : Params) (tick : Int) (costs : Costs)
    (all_agents : SummaryMap) :
    (resolveSendMessage sq regions agent_id p cr params tick costs all_agents).result.success = false →
    (resolveSendMessage sq regions agent_id p cr params tick costs all_agents).pool = p := by
  simp only [resolveSendMessage]
  repeat' split
  all_goals intro h
  all_goals first
    | rfl
    | (rename_i p' heq; exact deduct_false_eq _ _ _ heq)
    | exact absurd h (by simp)

theorem resolveObserve_fail (regions : RegionMap) (agent_id : String)
    (p : ResourcePool) (cr : String) (tick : Int) (costs : Costs) :
    (resolveObserve regions agent_id p cr tick costs).result.success = false →
    (resolveObserve regions agent_id p cr tick costs).pool = p := by
  simp only [resolveObserve]
  repeat' split
  all_goals intro h
  all_goals first
    | rfl
    | (rename_i p' heq; exact deduct_false_eq _ _ _ heq)
    | exact absurd h (by simp)

theorem resolveFork_fail (regions : RegionMap) (agent_id : String)
    (p : ResourcePool) (cr : String) (params : Params) (tick : Int) (costs : Costs) :
    (resolveFork regions agent_id p cr params tick costs).result.success = false →
    (resolveFork regions agent_id p cr params tick costs).pool = p := by
  simp only [resolveFork]
  repeat' split
  all_goals intro h
  all_goals first
    | rfl
    | (rename_i p' heq; exact deduct_false_eq _ _ _ heq)
    | exact absurd h (by simp)

theorem resolveMerge_fail (regions : RegionMap) (agent_id : String)
    (p : ResourcePool) (cr : String) (params : Params) (tick : Int) (costs : Costs)
    (all_agents : SummaryMap) :
    (resolveMerge regions agent_id p cr params tick costs all_agents).result.success = false →
    (resolveMerge regions agent_id p cr params tick costs all_agents).pool = p := by
  simp only [resolveMerge]
  repeat' split
  all_goals intro h
  all_goals first
    | rfl
    | (rename_i p' heq; exact deduct_false_eq _ _ _ heq)
    | exact absurd h (by simp)

theorem resolveAttack_fail (regions : RegionMap) (agent_id : String)
    (p : ResourcePool) (cr : String) (params : Params) (tick : Int) (costs : Costs)
    (all_agents : SummaryMap) :
    (resolveAttack regions agent_id p cr params tick costs all_agents).result.success = false →
    (resolveAttack regions agent_id p cr params tick costs all_agents).pool = p := by
  simp only [resolveAttack]
  repeat' split
  all_goals intro h
  all_goals first
    | rfl
    | (rename_i p' heq; exact deduct_false_eq _ _ _ heq)
    | exact absurd h (by simp)

theorem resolveAlly_fail (regions : RegionMap) (agent_id : String)
    (p : ResourcePool) (cr : String) (params : Params) (tick : Int) (costs : Costs)
    (all_agents : SummaryMap) :
    (resolveAlly regions agent_id p cr params tick costs all_agents).result.success = false →
    (resolveAlly regions agent_id p cr params tick costs all_agents).pool = p := by
  simp only [resolveAlly]
  repeat' split
  all_goals intro h
  all_goals first
    | rfl
    | (rename_i p' heq; exact deduct_false_eq _ _ _ heq)
    | exact absurd h (by simp)

/-- C5: whenever the rules engine returns a failed `ActionResult` — for
any action type and any input — the acting agent's pool is exactly
unchanged; and `deduct` is all-or-nothing: with every listed cost
affordable it subtracts them all, and with any single cost unaffordable
it subtracts nothing and reports failure. -/
theorem failed_action_no_debit :
    (∀ (sq : ℚ → ℚ) (regions : RegionMap) (action_type agent_id : String) (p : ResourcePool)
      (agent_region : String) (params : Params) (tick : Int) (all_agents : SummaryMap),
      (validateAndResolve sq regions action_type agent_id p agent_region params tick all_agents).result.success = false →
      (validateAndResolve sq regions action_type agent_id p agent_region params tick all_agents).pool = p) ∧
    (∀ (p : ResourcePool) (costs : Costs),
      (p.can_afford costs = true →
        p.deduct costs = (true, { p with holdings := ResourcePool.subtractAll p.holdings costs })) ∧
      (p.can_afford costs = false → p.deduct costs = (false, p)) ∧
      (p.can_afford costs = false ↔ ∃ rc ∈ costs, p.holdings.get rc.1 < rc.2)) := by
  constructor
  · intro sq regions action_type agent_id p agent_region params tick all_agents
    simp only [validateAndResolve]
    split
    · intro _
      rfl
    · split
      · intro _
        rfl
      · split
        all_goals first
          | apply resolveMove_fail
          | apply resolveTrade_fail
          | apply resolveSendMessage_fail
          | apply resolveObserve_fail
          | apply resolveFork_fail
          | apply resolveMerge_fail
          | apply resolveAttack_fail
          | apply resolveAlly_fail
          | (intro _; rfl)
  · intro p costs
    refine ⟨fun h => by simp [ResourcePool.deduct, h], fun h => by simp [ResourcePool.deduct, h], ?_⟩
    constructor
    · intro h
      by_contra hc
      push_neg at hc
      have hT : p.can_afford costs = true := by
        rw [ResourcePool.can_afford, List.all_eq_true]
        intro rc hrc
        exact decide_eq_true_eq.mpr (hc rc hrc)
      rw [hT] at h
      exact absurd h (by simp)
    · rintro ⟨rc, hrc, hlt⟩
      by_contra hc
      have hT : p.can_afford costs = true := by
        cases hh : p.can_afford costs
        · exact absurd hh hc
        · rfl
      rw [ResourcePool.can_afford, List.all_eq_true] at hT
      exact absurd (decide_eq_true_eq.mp (hT rc hrc)) (not_le.mpr hlt)

/-- Witness for C5: an unknown action type fails with no debit, and the
fork cost is deducted in full from the default pool. -/
theorem failed_action_no_debit_witness :
    (validateAndResolve (fun q => q) [] "dance" "A" ResourcePool.create_default "nexus"
      {} 1 []).pool = ResourcePool.create_default ∧
    ResourcePool.create_default.deduct (ACTION_COSTS "fork")
      = (true, { ResourcePool.create_default with
          holdings := ResourcePool.subtractAll ResourcePool.create_default.holdings
            (ACTION_COSTS "fork") }) :=
  ⟨failed_action_no_debit.1 (fun q => q) [] "dance" "A" ResourcePool.create_default "nexus"
      {} 1 [] (by simp [validateAndResolve, hasHandler, failResult]),
   (failed_action_no_debit.2 ResourcePool.create_default (ACTION_COSTS "fork")).1
      (by norm_num [ResourcePool.can_afford, ACTION_COSTS, ResourcePool.create_default,
        defaultInitial, Quantities.get])⟩

/-! ## Claim C10 -/

/-- Counterexample to C10: five successful validations of a valid token
drive its counter to five, and the sixth call — far from incrementing
the counter before any check — is refused by the attempt-limit check
first and leaves the counter at five. -/
theorem claim_attempts_counterexample :
    (validateClaimToken lsC10 "tok12345" 5).1 = ClaimOutcome.ok agentC10 ∧
    lookupKey "tok12345" ((stepC10)^[5] lsC10).claim_attempts = some 5 ∧
    (validateClaimToken ((stepC10)^[5] lsC10) "tok12345" 5).1
      = ClaimOutcome.err "Too many claim attempts for this token" ∧
    (stepC10)^[6] lsC10 = (stepC10)^[5] lsC10 := by
  refine ⟨?_, ?_, ?_, ?_⟩ <;>
    norm_num [stepC10, validateClaimToken, getAgentByClaimToken, lsC10, agentC10,
      MAX_CLAIM_ATTEMPTS, lookupKey, insertKey, Function.iterate_succ_apply,
      Function.iterate_zero_apply]

/-- C10 as amended: a validation call that finds the token's counter
below the limit of 5 increments it — before the token, status and
expiry checks, so page views and the validation inside a successful
claim all count — while a call that finds the counter at the limit
fails with the too-many-attempts error and leaves the state, counter
included, unchanged; the phrase rendering and the claim path carry the
validation's counter update through. -/
theorem claim_attempts_amended (st : LifecycleState) (claim_token owner : String) (now : ℚ) :
    (((lookupKey claim_token st.claim_attempts).getD 0) < MAX_CLAIM_ATTEMPTS →
      lookupKey claim_token (validateClaimToken st claim_token now).2.claim_attempts
        = some ((lookupKey claim_token st.claim_attempts).getD 0 + 1)) ∧
    (MAX_CLAIM_ATTEMPTS ≤ (lookupKey claim_token st.claim_attempts).getD 0 →
      (validateClaimToken st claim_token now).1
        = ClaimOutcome.err "Too many claim attempts for this token" ∧
      (validateClaimToken st claim_token now).2 = st) ∧
    (getVerificationPhrase st claim_token now).2 = (validateClaimToken st claim_token now).2 ∧
    (claimAgent st claim_token owner now).2.claim_attempts
      = (validateClaimToken st claim_token now).2.claim_attempts := by
  refine ⟨?_, ?_, ?_, ?_⟩
  · intro h
    simp only [validateClaimToken, if_neg (not_le.mpr h)]
    split
    · exact lookupKey_insertKey_self _ _ _
    · split
      · exact lookupKey_insertKey_self _ _ _
      · split
        · split
          · exact lookupKey_insertKey_self _ _ _
          · exact lookupKey_insertKey_self _ _ _
        · exact lookupKey_insertKey_self _ _ _
  · intro h
    rw [validateClaimToken, if_pos h]
    exact ⟨rfl, rfl⟩
  · rw [getVerificationPhrase]
    rcases hv : validateClaimToken st claim_token now with ⟨out, st1⟩
    cases out <;> rfl
  · rw [claimAgent]
    rcases hv : validateClaimToken st claim_token now with ⟨out, st1⟩
    cases out <;> rfl

/-- Witness for the amended C10 at the concrete token state: the first
successful validation moves the counter from absent to 1. -/
theorem claim_attempts_amended_witness :
    lookupKey "tok12345" (validateClaimToken lsC10 "tok12345" 5).2.claim_attempts
      = some ((lookupKey "tok12345" lsC10.claim_attempts).getD 0 + 1) :=
  (claim_attempts_amended lsC10 "tok12345" "@bob" 5).1
    (by simp [lsC10, lookupKey, MAX_CLAIM_ATTEMPTS])

/-! ## Claim C9 -/

/-- Inversion of a successful `validate_claim_token`: the token's first
holder is the returned agent, that agent is unclaimed, and the world is
untouched (only the attempt counter moved). -/
theorem validate_ok_spec (st : LifecycleState) (tok : String) (now : ℚ) (agent : AgentState)
    (st1 : LifecycleState) (h : validateClaimToken st tok now = (.ok agent, st1)) :
    getAgentByClaimToken st.world.agents tok = some agent ∧ agent.status = "unclaimed" ∧
    st1.world = st.world := by
  simp only [validateClaimToken] at h
  split at h
  · simp at h
  · split at h
    · simp at h
    · rename_i ag hag
      split at h
      · simp at h
      · rename_i hstat
        split at h
        · split at h
          · simp at h
          · simp only [Prod.mk.injEq, ClaimOutcome.ok.injEq] at h
            obtain ⟨rfl, hst⟩ := h
            exact ⟨hag, not_not.mp (fun hc => hstat hc), by rw [← hst]⟩
        · simp only [Prod.mk.injEq, ClaimOutcome.ok.injEq] at h
          obtain ⟨rfl, hst⟩ := h
          exact ⟨hag, not_not.mp (fun hc => hstat hc), by rw [← hst]⟩

/-- A successful token lookup names an entry of the agent map whose
stored token is the presented one. -/
theorem getAgentByClaimToken_some (l : List (String × AgentState)) (tok : String)
    (agent : AgentState) (h : getAgentByClaimToken l tok = some agent) :
    ∃ e ∈ l, (e.2 : AgentState) = agent ∧ agent.claim_token = some tok := by
  rw [getAgentByClaimToken] at h
  rcases hf : l.find? (fun e => e.2.claim_token = some tok) with _ | e
  · rw [hf] at h
    simp at h
  · rw [hf] at h
    have h2 : e.2 = agent := by
      simpa using h
    have hmem := List.mem_of_find?_eq_some hf
    have hpred := List.find?_some hf
    simp only [decide_eq_true_eq] at hpred
    exact ⟨e, hmem, h2, h2 ▸ hpred⟩

/-- When no agent holds the token, validation can only fail. -/
theorem validate_err_of_no_holder (st : LifecycleState) (tok : String) (now : ℚ)
    (h : getAgentByClaimToken st.world.agents tok = none) :
    ∃ m, (validateClaimToken st tok now).1 = ClaimOutcome.err m := by
  simp only [validateClaimToken]
  split
  · exact ⟨_, rfl⟩
  · rw [h]
    exact ⟨_, rfl⟩

/-- A failing validation makes `claim_agent` fail with the same error. -/
theorem claim_err_of_validate_err (st : LifecycleState) (tok owner : String) (now : ℚ)
    (m : String) (h : (validateClaimToken st tok now).1 = ClaimOutcome.err m) :
    (claimAgent st tok owner now).1 = ClaimOutcome.err m := by
  rw [claimAgent]
  rcases hv : validateClaimToken st tok now with ⟨out, s1⟩
  rw [hv] at h
  have h' : out = ClaimOutcome.err m := h
  subst h'
  rfl

/-- Counterexample to C9's final clause: killing an unclaimed agent
leaves its claim token in place, so a token is present on an agent whose
status is "dead", not "unclaimed". -/
theorem claim_token_counterexample :
    ((lookupKey "A" (killAgent lsC10 "A" 3).2.world.agents).map AgentState.status)
      = some "dead" ∧
    ((lookupKey "A" (killAgent lsC10 "A" 3).2.world.agents).map AgentState.claim_token)
      = some (some "tok12345") := by
  constructor <;>
    simp [killAgent, lsC10, agentC10, AgentState.is_alive, lookupKey, updateKey,
      removeAgent]

/-- C9 as amended: a successful claim marks the (unique) holder of the
token claimed, records the owner and clears the token and its expiry in
the same step, and afterwards every further validation or claim
presenting that token fails; a token validates only for an unclaimed
holder.  However, a token can remain PRESENT on an agent that is no
longer unclaimed: death transitions do not clear it (the
counterexample), although validation still rejects such tokens. -/
theorem claim_token_single_use (st : LifecycleState) (tok owner : String) (now : ℚ)
    (a : AgentState) (st2 : LifecycleState)
    (hkeys : ∀ e ∈ st.world.agents, (e.2 : AgentState).agent_id = e.1)
    (hnd : (st.world.agents.map Prod.fst).Nodup)
    (huniq : ∀ e ∈ st.world.agents, ∀ e' ∈ st.world.agents,
      (e.2 : AgentState).claim_token = some tok →
      (e'.2 : AgentState).claim_token = some tok → e = e')
    (hclaim : claimAgent st tok owner now = (.ok a, st2)) :
    a.status = "claimed" ∧ a.claim_token = none ∧ a.claim_token_expires = none ∧
    a.owner_identity = some owner ∧
    lookupKey a.agent_id st2.world.agents = some a ∧
    (∀ now2, ∃ m, (validateClaimToken st2 tok now2).1 = ClaimOutcome.err m) ∧
    (∀ now2 owner2, ∃ m, (claimAgent st2 tok owner2 now2).1 = ClaimOutcome.err m) ∧
    (∀ (now3 : ℚ) (ag : AgentState) (st3 : LifecycleState),
      validateClaimToken st tok now3 = (ClaimOutcome.ok ag, st3) →
      ag.status = "unclaimed" ∧ ag.claim_token = some tok) := by
  rw [claimAgent] at hclaim
  rcases hv : validateClaimToken st tok now with ⟨out, st1⟩
  rw [hv] at hclaim
  cases out with
  | err m => simp at hclaim
  | ok agent =>
    simp only [Prod.mk.injEq, ClaimOutcome.ok.injEq] at hclaim
    obtain ⟨ha, hst2⟩ := hclaim
    obtain ⟨hag, hstat, hw1⟩ := validate_ok_spec st tok now agent st1 hv
    obtain ⟨efound, hemem, hea, hetok⟩ := getAgentByClaimToken_some _ _ _ hag
    have hkey : efound.1 = agent.agent_id := by
      rw [← hkeys efound hemem, hea]
    have hlook : lookupKey agent.agent_id st.world.agents = some agent := by
      rw [← hkey, lookupKey_of_mem _ _ hnd hemem, hea]
    have hnone : getAgentByClaimToken st2.world.agents tok = none := by
      rw [← hst2]
      simp only [getAgentByClaimToken, Option.map_eq_none', List.find?_eq_none]
      intro e' he'
      simp only [decide_eq_true_eq]
      rw [hw1] at he'
      rcases mem_updateKey _ _ _ _ hnd he' with ⟨hold, hne⟩ | ⟨v, hvmem, rfl⟩
      · intro htok'
        have heq := huniq e' hold efound hemem htok' (hea ▸ hetok)
        exact hne (heq ▸ hkey)
      · simp [claimUpdate]
    refine ⟨?_, ?_, ?_, ?_, ?_, ?_, ?_, ?_⟩
    · rw [← ha]
      rfl
    · rw [← ha]
      rfl
    · rw [← ha]
      rfl
    · rw [← ha]
      rfl
    · rw [← hst2, ← ha]
      show lookupKey agent.agent_id _ = _
      rw [hw1, lookupKey_updateKey_self, hlook]
      rfl
    · intro now2
      exact validate_err_of_no_holder st2 tok now2 hnone
    · intro now2 owner2
      obtain ⟨m, hm⟩ := validate_err_of_no_holder st2 tok now2 hnone
      exact ⟨m, claim_err_of_validate_err st2 tok owner2 now2 m hm⟩
    · intro now3 ag st3 hv3
      obtain ⟨hag3, hstat3, -⟩ := validate_ok_spec st tok now3 ag st3 hv3
      obtain ⟨-, -, -, htok3⟩ := getAgentByClaimToken_some _ _ _ hag3
      exact ⟨hstat3, htok3⟩

/-- Witness for the amended C9 at the concrete token state. -/
theorem claim_token_single_use_witness :
    claimedC9.status = "claimed" ∧ claimedC9.claim_token = none ∧
    claimedC9.claim_token_expires = none ∧ claimedC9.owner_identity = some "@bob" ∧
    lookupKey claimedC9.agent_id stC9.world.agents = some claimedC9 ∧
    (∀ now2, ∃ m, (validateClaimToken stC9 "tok12345" now2).1 = ClaimOutcome.err m) ∧
    (∀ now2 owner2, ∃ m, (claimAgent stC9 "tok12345" owner2 now2).1 = ClaimOutcome.err m) ∧
    (∀ (now3 : ℚ) (ag : AgentState) (st3 : LifecycleState),
      validateClaimToken lsC10 "tok12345" now3 = (ClaimOutcome.ok ag, st3) →
      ag.status = "unclaimed" ∧ ag.claim_token = some "tok12345") := by
  refine claim_token_single_use lsC10 "tok12345" "@bob" 5 claimedC9 stC9 ?_ ?_ ?_ ?_
  · intro e he
    simp only [lsC10, List.mem_singleton] at he
    rw [he]
    rfl
  · simp [lsC10]
  · intro e he e' he' h1 h2
    simp only [lsC10, List.mem_singleton] at he he'
    rw [he, he']
  · norm_num [claimAgent, claimUpdate, validateClaimToken, getAgentByClaimToken, lsC10,
      agentC10, claimedC9, stC9, MAX_CLAIM_ATTEMPTS, lookupKey, insertKey, updateKey]

/-! ## Claim C2 -/

/-- Counterexample to C2: after a successful fork, the parent and the
child are two distinct agents sharing the public key "pk1" — the fork
side effect copies the parent's key to the child — so the agent_id ↔
public-key mapping is not bijective. -/
theorem registration_bijective_counterexample :
    ((lookupKey "A" (applyForkEffect worldC8 "A" "child1" 7).agents).map
      AgentState.public_key) = some "pk1" ∧
    ((lookupKey "child1" (applyForkEffect worldC8 "A" "child1" 7).agents).map
      AgentState.public_key) = some "pk1" ∧
    ("A" : String) ≠ "child1" := by
  have hAC : ¬(("A" : String) = "child1") := by decide
  refine ⟨?_, ?_, by decide⟩ <;>
    norm_num [applyForkEffect, worldC8, parentC8, addAgent, lookupKey, insertKey,
      updateKey, halveQ, hAC]

/-- C2 as amended: in every world reachable through registration alone —
where each stored agent sits under its own id and that id is derived
from its public key — distinct agents have distinct public keys; a
second registration with an already-registered public key fails and
leaves the world unchanged; registration preserves that shape and the
uniqueness of agent ids.  A successful fork, however, copies the
parent's public key to the child (the counterexample), so the bijection
does not survive forking. -/
theorem registration_bijective_amended (genId : String → String) (w : WorldState)
    (hw : RegisteredWorld genId w) :
    (∀ e1 ∈ w.agents, ∀ e2 ∈ w.agents,
      (e1.2 : AgentState).public_key = (e2.2 : AgentState).public_key → e1.1 = e2.1) ∧
    (∀ (powOk sigOk : Bool) (pk dn tok : String) (now : ℚ),
      (∃ e ∈ w.agents, (e.2 : AgentState).public_key = pk) →
      (registerAgent genId w powOk sigOk pk dn tok now).1.success = false ∧
      (registerAgent genId w powOk sigOk pk dn tok now).2 = w) ∧
    (∀ (powOk sigOk : Bool) (pk dn tok : String) (now : ℚ),
      RegisteredWorld genId (registerAgent genId w powOk sigOk pk dn tok now).2) ∧
    (∀ (pk dn tok : String) (now : ℚ), (w.agents.map Prod.fst).Nodup →
      (((registerAgent genId w true true pk dn tok now).2.agents.map Prod.fst).Nodup)) := by
  refine ⟨?_, ?_, ?_, ?_⟩
  · intro e1 h1 e2 h2 hpk
    rw [(hw e1 h1).2, (hw e2 h2).2, hpk]
  · intro powOk sigOk pk dn tok now ⟨e, he, hpk⟩
    have hkey : e.1 = genId pk := by
      rw [(hw e he).2, hpk]
    have hsome : (lookupKey (genId pk) w.agents).isSome := by
      rw [← hkey]
      exact isSome_lookupKey_of_mem w.agents e.1 e.2 he
    rw [registerAgent]
    split
    · exact ⟨rfl, rfl⟩
    · split
      · exact ⟨rfl, rfl⟩
      · rw [if_pos hsome]
        exact ⟨rfl, rfl⟩
  · intro powOk sigOk pk dn tok now
    simp only [registerAgent]
    split
    · exact hw
    · split
      · exact hw
      · split
        · exact hw
        · intro e he
          rcases mem_insertKey _ _ _ _ he with h1 | h1
          · exact hw e h1
          · rw [h1]
            exact ⟨rfl, rfl⟩
  · intro pk dn tok now hnd
    simp only [registerAgent]
    repeat' split
    all_goals first
      | exact hnd
      | exact keys_insertKey _ _ _ hnd

/-- Witness for the amended C2: re-registering the key "pk1" in a world
that already holds it fails and leaves the world unchanged. -/
theorem registration_bijective_amended_witness :
    (registerAgent genIdW worldW2 true true "pk1" "" "t2" 0).1.success = false ∧
    (registerAgent genIdW worldW2 true true "pk1" "" "t2" 0).2 = worldW2 :=
  (registration_bijective_amended genIdW worldW2 (by
      intro e he
      simp only [worldW2, List.mem_singleton] at he
      rw [he]
      exact ⟨rfl, rfl⟩)).2.1 true true "pk1" "" "t2" 0
    ⟨("agent_pk1", agentW2), by simp [worldW2], rfl⟩

/-! ## Claim C4 -/

/-- A failed `accept_offer` call never touches the agent map (some
failure branches re-status the offer, none move holdings). -/
theorem acceptOffer_fail_agents (st : TradeState) (offer_id acc : String) (tick : Int) :
    (acceptOffer st offer_id acc tick).1.success = false →
    (acceptOffer st offer_id acc tick).2.agents = st.agents := by
  simp only [acceptOffer]
  repeat' split
  all_goals intro h
  all_goals first
    | rfl
    | exact absurd h (by simp)

/-- Inversion of a successful `accept_offer`: every check passed, and
the new agent map is exactly the four-step transfer applied to the old
one. -/
theorem acceptOffer_success_spec (st : TradeState) (offer_id acc : String) (tick : Int)
    (result : TradeResult) (st' : TradeState)
    (heq : acceptOffer st offer_id acc tick = (result, st'))
    (h : result.success = true) :
    ∃ offer offerR requestR fromA toA,
      lookupKey offer_id st.offers = some offer ∧
      offer.status = "pending" ∧
      offer.to_agent = acc ∧
      tick ≤ offer.expires_at_tick ∧
      lookupKey offer.from_agent st.agents = some fromA ∧ fromA.is_alive = true ∧
      lookupKey offer.to_agent st.agents = some toA ∧ toA.is_alive = true ∧
      parseResource offer.offer_resource = some offerR ∧
      parseResource offer.request_resource = some requestR ∧
      offer.offer_amount ≤ fromA.resources.holdings.get offerR ∧
      offer.request_amount ≤ toA.resources.holdings.get requestR ∧
      st'.agents =
        updateKey offer.from_agent (modifyHolding requestR (fun v => v + offer.request_amount))
          (updateKey offer.to_agent (modifyHolding requestR (fun v => v - offer.request_amount))
            (updateKey offer.to_agent (modifyHolding offerR (fun v => v + offer.offer_amount))
              (updateKey offer.from_agent (modifyHolding offerR (fun v => v - offer.offer_amount))
                st.agents))) := by
  simp only [acceptOffer] at heq
  split at heq
  · cases heq
    exact absurd h (by simp)
  · rename_i offer hoffer
    split at heq
    · cases heq
      exact absurd h (by simp)
    · rename_i hstat
      split at heq
      · cases heq
        exact absurd h (by simp)
      · rename_i hrecip
        split at heq
        · cases heq
          exact absurd h (by simp)
        · rename_i hexp
          split at heq
          · cases heq
            exact absurd h (by simp)
          · rename_i fromA hfrom
            split at heq
            · cases heq
              exact absurd h (by simp)
            · rename_i hfalive
              split at heq
              · cases heq
                exact absurd h (by simp)
              · rename_i toA hto
                split at heq
                · cases heq
                  exact absurd h (by simp)
                · rename_i htalive
                  split at heq
                  · rename_i offerR requestR hp1 hp2
                    split at heq
                    · cases heq
                      exact absurd h (by simp)
                    · rename_i hsuff1
                      split at heq
                      · cases heq
                        exact absurd h (by simp)
                      · rename_i hsuff2
                        cases heq
                        exact ⟨offer, offerR, requestR, fromA, toA, hoffer,
                          not_not.mp hstat, not_not.mp hrecip, not_lt.mp hexp,
                          hfrom, not_not.mp hfalive, hto, not_not.mp htalive,
                          hp1, hp2, not_lt.mp hsuff1, not_lt.mp hsuff2, rfl⟩
                  · cases heq
                    exact absurd h (by simp)

/-- C4: `accept_offer` is atomic and conserving.  A created offer
expires at its creation tick + 10.  On failure — any of the checks the
source runs: offer found, still pending, accepting agent the intended
recipient, not past expiry, both parties present and alive, both
resource strings valid, both sides sufficiently funded at acceptance
time — the agent map is exactly unchanged.  On success (between two
distinct parties) the offerer loses exactly `offer_amount` of the offer
resource and gains exactly `request_amount` of the request resource, the
accepter gains and loses the same amounts, every other agent is
untouched — so the pairwise sum of holdings of each resource is
conserved — and success implies every one of the listed checks held. -/
theorem accept_offer_atomic :
    (∀ (offer_id : String) (tick : Int) (fa ta ores : String) (oa : ℚ) (rres : String) (ra : ℚ),
      (createOffer offer_id tick fa ta ores oa rres ra).expires_at_tick = tick + 10 ∧
      (createOffer offer_id tick fa ta ores oa rres ra).status = "pending") ∧
    (∀ (st : TradeState) (offer_id acc : String) (tick : Int),
      (acceptOffer st offer_id acc tick).1.success = false →
      (acceptOffer st offer_id acc tick).2.agents = st.agents) ∧
    (∀ (st : TradeState) (offer_id acc : String) (tick : Int) (result : TradeResult)
      (st' : TradeState) (offer : TradeOffer) (offerR requestR : ResourceType)
      (fromA toA : AgentState),
      acceptOffer st offer_id acc tick = (result, st') →
      result.success = true →
      lookupKey offer_id st.offers = some offer →
      parseResource offer.offer_resource = some offerR →
      parseResource offer.request_resource = some requestR →
      lookupKey offer.from_agent st.agents = some fromA →
      lookupKey offer.to_agent st.agents = some toA →
      offer.from_agent ≠ offer.to_agent →
      ∀ r : ResourceType,
        ((lookupKey offer.from_agent st'.agents).map fun a => a.resources.holdings.get r)
          = some (fromA.resources.holdings.get r
              - (if r = offerR then offer.offer_amount else 0)
              + (if r = requestR then offer.request_amount else 0)) ∧
        ((lookupKey offer.to_agent st'.agents).map fun a => a.resources.holdings.get r)
          = some (toA.resources.holdings.get r
              + (if r = offerR then offer.offer_amount else 0)
              - (if r = requestR then offer.request_amount else 0)) ∧
        (∀ other, other ≠ offer.from_agent → other ≠ offer.to_agent →
          lookupKey other st'.agents = lookupKey other st.agents)) ∧
    (∀ (st : TradeState) (offer_id acc : String) (tick : Int) (result : TradeResult)
      (st' : TradeState),
      acceptOffer st offer_id acc tick = (result, st') →
      result.success = true →
      ∃ offer offerR requestR fromA toA,
        lookupKey offer_id st.offers = some offer ∧
        offer.status = "pending" ∧
        offer.to_agent = acc ∧
        tick ≤ offer.expires_at_tick ∧
        lookupKey offer.from_agent st.agents = some fromA ∧ fromA.is_alive = true ∧
        lookupKey offer.to_agent st.agents = some toA ∧ toA.is_alive = true ∧
        parseResource offer.offer_resource = some offerR ∧
        parseResource offer.request_resource = some requestR ∧
        offer.offer_amount ≤ fromA.resources.holdings.get offerR ∧
        offer.request_amount ≤ toA.resources.holdings.get requestR) := by
  refine ⟨fun _ _ _ _ _ _ _ _ => ⟨rfl, rfl⟩, acceptOffer_fail_agents, ?_, ?_⟩
  · intro st offer_id acc tick result st' offer offerR requestR fromA toA heq hsucc
      hoffer hp1 hp2 hfrom hto hne r
    obtain ⟨offer', offerR', requestR', fromA', toA', ho', -, -, -, hf', -, ht', -,
      hp1', hp2', -, -, hagents⟩ :=
      acceptOffer_success_spec st offer_id acc tick result st' heq hsucc
    obtain rfl : offer = offer' := Option.some.inj (hoffer.symm.trans ho')
    obtain rfl : fromA = fromA' := Option.some.inj (hfrom.symm.trans hf')
    obtain rfl : toA = toA' := Option.some.inj (hto.symm.trans ht')
    obtain rfl : offerR = offerR' := Option.some.inj (hp1.symm.trans hp1')
    obtain rfl : requestR = requestR' := Option.some.inj (hp2.symm.trans hp2')
    refine ⟨?_, ?_, ?_⟩
    · rw [hagents, lookupKey_updateKey_self, lookupKey_updateKey_ne _ _ hne,
        lookupKey_updateKey_ne _ _ hne, lookupKey_updateKey_self, hfrom]
      simp only [Option.map_map, Option.map_some', Function.comp_apply, Option.some.injEq,
        modifyHolding_get]
      by_cases h1 : r = requestR <;> by_cases h2 : r = offerR <;> simp_all
    · rw [hagents, lookupKey_updateKey_ne _ _ (Ne.symm hne), lookupKey_updateKey_self,
        lookupKey_updateKey_self, lookupKey_updateKey_ne _ _ (Ne.symm hne), hto]
      simp only [Option.map_map, Option.map_some', Function.comp_apply, Option.some.injEq,
        modifyHolding_get]
      by_cases h1 : r = requestR <;> by_cases h2 : r = offerR <;> simp_all
    · intro other hne1 hne2
      rw [hagents, lookupKey_updateKey_ne _ _ hne1, lookupKey_updateKey_ne _ _ hne2,
        lookupKey_updateKey_ne _ _ hne2, lookupKey_updateKey_ne _ _ hne1]
  · intro st offer_id acc tick result st' heq hsucc
    obtain ⟨offer, offerR, requestR, fromA, toA, h1, h2, h3, h4, h5, h6, h7, h8, h9,
      h10, h11, h12, -⟩ :=
      acceptOffer_success_spec st offer_id acc tick result st' heq hsucc
    exact ⟨offer, offerR, requestR, fromA, toA, h1, h2, h3, h4, h5, h6, h7, h8, h9,
      h10, h11, h12⟩

/-- Witness for C4: the concrete offer expires at 1 + 10 = 11, and
accepting a missing offer id fails and leaves the agents of the concrete
trade state untouched. -/
theorem accept_offer_atomic_witness :
    (createOffer "t1" 1 "A" "B" "energy" 10 "compute" 5).expires_at_tick = 1 + 10 ∧
    (acceptOffer tsC3 "missing" "B" 2).2.agents = tsC3.agents :=
  ⟨(accept_offer_atomic.1 "t1" 1 "A" "B" "energy" 10 "compute" 5).1,
   accept_offer_atomic.2.1 tsC3 "missing" "B" 2
     (by simp [acceptOffer, tsC3, lookupKey])⟩

/-! ## Claim C3 -/

/-- Accepting an offer whose two amounts are non-negative keeps every
agent's every holding non-negative (the sufficiency checks make the two
debits safe; the credits only add). -/
theorem acceptOffer_nonneg (st : TradeState) (offer_id acc : String) (tick : Int)
    (hamts : ∀ o, lookupKey offer_id st.offers = some o →
      0 ≤ o.offer_amount ∧ 0 ≤ o.request_amount)
    (hpre : ∀ k a, lookupKey k st.agents = some a → ∀ r, 0 ≤ a.resources.holdings.get r) :
    ∀ k a', lookupKey k (acceptOffer st offer_id acc tick).2.agents = some a' →
      ∀ r, 0 ≤ a'.resources.holdings.get r := by
  rcases hres : acceptOffer st offer_id acc tick with ⟨result, st'⟩
  cases hsucc : result.success
  · have hagents : st'.agents = st.agents := by
      have := acceptOffer_fail_agents st offer_id acc tick (by rw [hres]; exact hsucc)
      rw [hres] at this
      exact this
    intro k a' hka' r
    rw [hagents] at hka'
    exact hpre k a' hka' r
  · obtain ⟨offer, offerR, requestR, fromA, toA, hoffer, -, -, -, hfrom, -, hto, -, -, -,
      hs1, hs2, hagents⟩ :=
      acceptOffer_success_spec st offer_id acc tick result st' hres hsucc
    obtain ⟨hoa, hra⟩ := hamts offer hoffer
    have hfa := hpre offer.from_agent fromA hfrom
    have hta := hpre offer.to_agent toA hto
    intro k a' hka' r
    rw [hagents] at hka'
    by_cases hkf : k = offer.from_agent <;> by_cases hkt : k = offer.to_agent
    · -- the offerer trades with itself: the four mutations cancel
      subst hkf
      rw [← hkt, lookupKey_updateKey_self, lookupKey_updateKey_self,
        lookupKey_updateKey_self, lookupKey_updateKey_self, hfrom] at hka'
      simp only [Option.map_some', Option.some.injEq] at hka'
      obtain rfl := hka'.symm
      simp only [modifyHolding_get]
      by_cases hr1 : r = requestR <;> by_cases hr2 : r = offerR <;> simp_all
    · subst hkf
      rw [lookupKey_updateKey_self, lookupKey_updateKey_ne _ _ hkt,
        lookupKey_updateKey_ne _ _ hkt, lookupKey_updateKey_self, hfrom] at hka'
      simp only [Option.map_some', Option.some.injEq] at hka'
      obtain rfl := hka'.symm
      simp only [modifyHolding_get]
      by_cases hr1 : r = requestR <;> by_cases hr2 : r = offerR <;> simp_all <;>
        linarith [hfa r, hfa offerR, hfa requestR]
    · subst hkt
      rw [lookupKey_updateKey_ne _ _ hkf, lookupKey_updateKey_self,
        lookupKey_updateKey_self, lookupKey_updateKey_ne _ _ hkf, hto] at hka'
      simp only [Option.map_some', Option.some.injEq] at hka'
      obtain rfl := hka'.symm
      simp only [modifyHolding_get]
      by_cases hr1 : r = requestR <;> by_cases hr2 : r = offerR <;> simp_all <;>
        linarith [hta r, hta offerR, hta requestR]
    · rw [lookupKey_updateKey_ne _ _ hkf, lookupKey_updateKey_ne _ _ hkt,
        lookupKey_updateKey_ne _ _ hkt, lookupKey_updateKey_ne _ _ hkf] at hka'
      exact hpre k a' hka' r

/-- Counterexample to C3: accepting A's offer of 10 energy leaves B —
who held 95 energy against a cap of 100 — with 105 energy, above its
cap: trade-offer acceptance credits without clamping to caps. -/
theorem holdings_caps_counterexample :
    (acceptOffer tsC3 "t1" "B" 2).1.success = true ∧
    ((lookupKey "B" (acceptOffer tsC3 "t1" "B" 2).2.agents).map
      fun a => a.resources.holdings.get ResourceType.energy) = some 105 ∧
    ((lookupKey "B" (acceptOffer tsC3 "t1" "B" 2).2.agents).map
      fun a => a.resources.caps.get ResourceType.energy) = some 100 ∧
    ¬((105 : ℚ) ≤ 100) := by
  have hAB : ¬(("A" : String) = "B") := by decide
  have hBA : ¬(("B" : String) = "A") := by decide
  refine ⟨?_, ?_, ?_, by norm_num⟩ <;>
    norm_num [acceptOffer, tsC3, offerC3, createOffer, agentA3, agentB3, parseResource,
      AgentState.is_alive, modifyHolding, setOfferStatus, lookupKey, updateKey,
      Quantities.get, Quantities.set, OFFER_WINDOW_TICKS, hAB, hBA, defaultCaps]

/-- C3 as amended: holdings stay non-negative and within caps after cost
deduction, regeneration, danger application, merge absorption and the
attack side effect; trade-offer acceptance preserves non-negativity when
the offer's amounts are non-negative, but it credits without clamping to
caps, so an accepted trade can push the recipient's holding above its
cap. -/
theorem holdings_bounds_amended :
    (∀ (p : ResourcePool) (costs : Costs),
      (costs.map Prod.fst).Nodup → (∀ rc ∈ costs, 0 ≤ rc.2) → InBounds p →
      InBounds (p.deduct costs).2) ∧
    (∀ (p : ResourcePool) (m : ℚ), 0 ≤ m → InBounds p → InBounds (p.regenerate m)) ∧
    (∀ (regions : RegionMap) (aid : String) (p : ResourcePool) (rid : String) (tick : Int),
      InBounds p → InBounds (applyDanger regions aid p rid tick).1) ∧
    (∀ (w : WorldState) (sid aid2 : String) (tick : Int) (surv ab : AgentState),
      sid ≠ aid2 →
      lookupKey sid w.agents = some surv → lookupKey aid2 w.agents = some ab →
      InBounds surv.resources → (∀ r, 0 ≤ ab.resources.holdings.get r) →
      ∃ s', lookupKey sid (applyMergeEffect w sid aid2 tick).agents = some s' ∧
        InBounds s'.resources) ∧
    (∀ (w : WorldState) (targetId : String) (strength : ℚ) (tick : Int) (target : AgentState),
      lookupKey targetId w.agents = some target → 0 ≤ strength →
      InBounds target.resources →
      ∃ t', lookupKey targetId (applyAttackEffect w targetId strength tick).agents = some t' ∧
        InBounds t'.resources) ∧
    (∀ (st : TradeState) (offer_id acc : String) (tick : Int),
      (∀ o, lookupKey offer_id st.offers = some o →
        0 ≤ o.offer_amount ∧ 0 ≤ o.request_amount) →
      (∀ k a, lookupKey k st.agents = some a → ∀ r, 0 ≤ a.resources.holdings.get r) →
      ∀ k a', lookupKey k (acceptOffer st offer_id acc tick).2.agents = some a' →
        ∀ r, 0 ≤ a'.resources.holdings.get r) := by
  refine ⟨?_, ?_, ?_, ?_, ?_, acceptOffer_nonneg⟩
  · intro p costs hnd hc hp
    rw [ResourcePool.deduct]
    split
    · rename_i hca
      rw [ResourcePool.can_afford, List.all_eq_true] at hca
      intro r
      have hb := subtractAll_bounds costs p.holdings hnd
        (fun rc hrc => ⟨hc rc hrc, decide_eq_true_eq.mp (hca rc hrc)⟩)
        (fun r' => (hp r').1) r
      exact ⟨hb.1, le_trans hb.2 (hp r).2⟩
    · exact hp
  · intro p m hm hp r
    have hreg : (p.regenerate m).holdings.get r
        = min (p.holdings.get r + defaultRegen.get r * m) (p.caps.get r) := by
      cases r <;> rfl
    have hcaps : (p.regenerate m).caps = p.caps := rfl
    obtain ⟨h1, h2⟩ := hp r
    have hrm : 0 ≤ defaultRegen.get r * m := by
      apply mul_nonneg _ hm
      cases r <;> norm_num [defaultRegen, Quantities.get]
    rw [hreg, hcaps]
    exact ⟨le_min (by linarith) (by linarith), min_le_right _ _⟩
  · intro regions aid p rid tick hp
    simp only [applyDanger]
    split
    · exact hp
    · split
      · exact hp
      · rename_i region hreg hd
        have hd' : 0 < region.danger_level := not_le.mp hd
        split
        all_goals intro r
        all_goals rw [Quantities.get_set]
        all_goals split
        all_goals rename_i hr
        · constructor
          · exact le_max_left _ _
          · apply max_le
            · exact le_trans (hp .energy).1 (hr ▸ (hp r).2)
            · have := (hp .energy).2
              have : p.holdings.get .energy - region.danger_level * 5
                  ≤ p.caps.get .energy := by
                nlinarith [(hp ResourceType.energy).2]
              exact le_trans this (by rw [hr])
        · exact hp r
        · constructor
          · exact le_max_left _ _
          · apply max_le
            · exact le_trans (hp .energy).1 (hr ▸ (hp r).2)
            · have : p.holdings.get .energy - region.danger_level * 5
                  ≤ p.caps.get .energy := by
                nlinarith [(hp ResourceType.energy).2]
              exact le_trans this (by rw [hr])
        · exact hp r
  · intro w sid aid2 tick surv ab hne hs hab hbs hba
    simp only [applyMergeEffect, hs, hab]
    rw [removeAgent_agents, lookupKey_updateKey_ne _ _ hne, lookupKey_updateKey_self, hs]
    refine ⟨_, rfl, ?_⟩
    intro r
    have habs := absorbHoldings_get surv.resources ab.resources.holdings r
    constructor
    · rw [habs]
      exact le_min (add_nonneg (hbs r).1 (hba r)) (le_trans (hbs r).1 (hbs r).2)
    · rw [habs]
      exact min_le_right _ _
  · intro w targetId strength tick target ht hstr hb
    have hdmg : 0 ≤ strength * (3/10) := by positivity
    simp only [applyAttackEffect, ht]
    split
    · rw [removeAgent_agents, lookupKey_updateKey_self, ht]
      refine ⟨_, rfl, ?_⟩
      intro r
      rw [Quantities.get_set]
      split
      · rename_i hr
        refine ⟨le_max_left _ _, max_le (le_trans (hb .energy).1 (hr ▸ (hb r).2)) ?_⟩
        have : target.resources.holdings.get .energy - strength * (3/10)
            ≤ target.resources.caps.get .energy := by
          linarith [(hb ResourceType.energy).2]
        exact le_trans this (by rw [hr])
      · exact hb r
    · rw [lookupKey_updateKey_self, ht]
      refine ⟨_, rfl, ?_⟩
      intro r
      rw [Quantities.get_set]
      split
      · rename_i hr
        refine ⟨le_max_left _ _, max_le (le_trans (hb .energy).1 (hr ▸ (hb r).2)) ?_⟩
        have : target.resources.holdings.get .energy - strength * (3/10)
            ≤ target.resources.caps.get .energy := by
          linarith [(hb ResourceType.energy).2]
        exact le_trans this (by rw [hr])
      · exact hb r

/-- Witness for the amended C3: regeneration at the nexus multiplier
keeps the concrete attacker pool within bounds. -/
theorem holdings_bounds_amended_witness : InBounds (poolC1.regenerate 1) :=
  holdings_bounds_amended.2.1 poolC1 1 (by norm_num)
    (by intro r; cases r <;> norm_num [poolC1, defaultCaps, Quantities.get])

end Observatory
